import Mathlib

/-!
Shallow embedding of `src/lichess_annual_stats.py`, function `fetch_game_stats`
(the streaming aggregation engine), together with theorems checking the
specification's claims about it.

Modelling conventions:
* One NDJSON input line is a `Line`: either whitespace-only (`blank`), a line
  that fails UTF-8 decoding or JSON parsing (`malformed`), or a parsed game
  object (`game g`).  The network transport is outside the embedded component.
* JSON fields that the code reads are embedded with the types the data model
  gives them: optional integers for the millisecond timestamps and ratings,
  optional strings for identifiers, speed, status and winner; `none` stands
  for an absent (or null) field.
* Python's truthiness in `game.get("createdAt") or game.get("lastMoveAt")` is
  kept: an integer `0` is falsy and falls through to the second field.
* `list.sort` / `sort(key=..., reverse=True)` are stable sorts; they are
  embedded as `List.insertionSort` with the corresponding total preorder,
  which computes exactly the stable sort.
* Machine integers do not overflow in Python, so counters are `Nat`/`Int`.
-/

/-- One side of `game["players"]`: the fields the code reads
(`user.id`, `rating`, `user.name`). -/
structure Player where
  uid : Option String
  rating : Option Int
  uname : Option String
deriving DecidableEq

/-- The fields of a parsed game record that `fetch_game_stats` reads. -/
structure Game where
  gid : Option String
  createdAt : Option Int
  lastMoveAt : Option Int
  speed : Option String
  white : Player
  black : Player
  status : Option String
  winner : Option String
deriving DecidableEq

/-- One line of the NDJSON stream as seen by the aggregation loop. -/
inductive Line where
  | blank
  | malformed
  | game (g : Game)
deriving DecidableEq

/-- Entry of `stats["top_wins"]`: `(rating, name, game_id)`. -/
def TopWin : Type := Int × String × Option String

instance : DecidableEq TopWin := fun a b =>
  inferInstanceAs (Decidable (Prod.mk a.1 a.2 = Prod.mk b.1 b.2))

/-- `stats["speed_counts"]`. -/
structure SpeedCounts where
  bullet : Nat
  blitz : Nat
  rapid : Nat
  classical : Nat
deriving DecidableEq

/-- `stats["results"]` and each entry of `stats["color_results"]`. -/
structure Results where
  win : Nat
  loss : Nat
  draw : Nat
deriving DecidableEq

/-- `stats["color_results"]`. -/
structure ColorResults where
  white : Results
  black : Results
deriving DecidableEq

/-- `stats["endings"]`. -/
structure Endings where
  mate : Nat
  resign : Nat
  stalemate : Nat
  timeout : Nat
  outoftime : Nat
  aborted : Nat
  draw : Nat
  other : Nat
deriving DecidableEq

/-- One entry of `stats["opponent_by_speed"]`. -/
structure SumCount where
  sum : Int
  count : Nat
deriving DecidableEq

/-- `stats["opponent_by_speed"]`. -/
structure OppBySpeed where
  bullet : SumCount
  blitz : SumCount
  rapid : SumCount
  classical : SumCount
deriving DecidableEq

/-- The `stats` dictionary built by `fetch_game_stats`.  The histogram
dictionaries (`opponent_hist`) and fixed-length count lists
(`month_counts[12]`, `wday_counts[7]`, `hour_counts[24]`) are embedded as
total functions from the key to the stored count (a missing dictionary key
reads as 0 via `hist.get(bucket, 0)`). -/
structure Stats where
  total : Nat
  speed_counts : SpeedCounts
  other_speeds : Nat
  results : Results
  color_results : ColorResults
  endings : Endings
  timeout_wins : Nat
  timeout_losses : Nat
  opponent_rating_sum : Int
  opponent_rating_count : Nat
  opponent_by_speed : OppBySpeed
  opponent_hist : Int → Nat
  top_wins : List TopWin
  month_counts : Nat → Nat
  wday_counts : Nat → Nat
  hour_counts : Nat → Nat
  longest_win_streak : Nat
  longest_loss_streak : Nat
  longest_gap_ms : Int

/-- The aggregation loop's state: the `stats` accumulator plus the two local
buffers `timeline` and `timestamps`. -/
structure AggState where
  stats : Stats
  timeline : List (Int × String)
  timestamps : List Int

/-- `ts = game.get("createdAt") or game.get("lastMoveAt")` (line 107).
Python's `or` tests truthiness, so a created timestamp equal to `0` (and an
absent one) falls back to the last-move timestamp. -/
def chooseTs (g : Game) : Option Int :=
  match g.createdAt with
  | some c => if c = 0 then g.lastMoveAt else some c
  | none => g.lastMoveAt

/-- Days since the Unix epoch of a UTC millisecond timestamp (floor). -/
def daysOfMs (t : Int) : Int := Int.fdiv t 86400000

/-- `dt.datetime.fromtimestamp(ts / 1000, dt.timezone.utc).hour`. -/
def hourIdxOf (t : Int) : Nat := ((Int.fdiv t 3600000).emod 24).toNat

/-- `dt_obj.weekday()` (Monday = 0); 1970-01-01 was a Thursday (= 3). -/
def wdayIdxOf (t : Int) : Nat := ((daysOfMs t + 3).emod 7).toNat

/-- Month (1..12) of a count of days since the Unix epoch, by the standard
civil-from-days algorithm on the proleptic Gregorian calendar, matching
`datetime.fromtimestamp(..., utc).month`. -/
def monthOfDays (z0 : Int) : Int :=
  let z := z0 + 719468
  let era := (if 0 ≤ z then z else z - 146096).tdiv 146097
  let doe := z - era * 146097
  let yoe := (doe - doe.tdiv 1460 + doe.tdiv 36524 - doe.tdiv 146096).tdiv 365
  let doy := doe - (365 * yoe + yoe.tdiv 4 - yoe.tdiv 100)
  let mp := (5 * doy + 2).tdiv 153
  mp + (if mp < 10 then 3 else -9)

/-- `dt_obj.month - 1`, the index used into `month_counts`. -/
def monthIdxOf (t : Int) : Nat := (monthOfDays (daysOfMs t) - 1).toNat

/-- Increment one cell of a histogram embedded as a function. -/
def bump (f : Nat → Nat) (i : Nat) : Nat → Nat :=
  fun j => if j = i then f j + 1 else f j

/-- Python's `str.lower()`, on the character list (the identifiers involved
are ASCII; `String.toLower` itself is not kernel-reducible, so the embedding
maps `Char.toLower` over the characters, which is the same function). -/
def lowerStr (s : String) : String := ⟨s.data.map Char.toLower⟩

/-- `(white.get("user") or {}).get("id", "").lower()` (lines 126-127). -/
def lowerId (p : Player) : String := lowerStr (p.uid.getD "")

/-- Lines 128-133: which color the subject plays, if identifiable. -/
def userColorOf (uL : String) (g : Game) : Option String :=
  if lowerId g.white = uL then some "white"
  else if lowerId g.black = uL then some "black"
  else none

/-- `str(game.get("status", "")).lower()` (line 135). -/
def statusOf (g : Game) : String := lowerStr (g.status.getD "")

/-- The fixed draw-status set of lines 138-146. -/
def isDrawStatus (s : String) : Bool :=
  s = "draw" || s = "stalemate" || s = "repetition" || s = "50move" ||
  s = "timevsinsufficientmaterial" || s = "insufficientmaterial" || s = "agreed"

/-- Lines 150-157: the subject's outcome, given the subject's color `uc`.
The final `else` branch of the source also yields `"draw"`; it is kept to
mirror the code. -/
def outcomeVal (g : Game) (uc : String) : String :=
  if g.winner = some uc then "win"
  else if g.winner = some "white" ∨ g.winner = some "black" then "loss"
  else if isDrawStatus (statusOf g) ∨ g.winner = none then "draw"
  else "draw"

/-- The subject's outcome for a record, when the subject is identified. -/
def outcomeOf (uL : String) (g : Game) : Option String :=
  (userColorOf uL g).map (outcomeVal g)

/-- `stats["results"][outcome] += 1` (line 159); `outcome` is always one of
the three keys, the final `else` is unreachable. -/
def bumpResults (r : Results) (o : String) : Results :=
  if o = "win" then { r with win := r.win + 1 }
  else if o = "loss" then { r with loss := r.loss + 1 }
  else if o = "draw" then { r with draw := r.draw + 1 }
  else r

/-- `stats["color_results"][user_color][outcome] += 1` (line 160). -/
def bumpColorResults (cr : ColorResults) (uc : String) (o : String) : ColorResults :=
  if uc = "white" then { cr with white := bumpResults cr.white o }
  else if uc = "black" then { cr with black := bumpResults cr.black o }
  else cr

/-- Lines 164-166: `key = status if status in stats["endings"] else "other"`.
A literal `"other"` status also lands in the `other` bucket, as in the code. -/
def bumpEndings (e : Endings) (s : String) : Endings :=
  if s = "mate" then { e with mate := e.mate + 1 }
  else if s = "resign" then { e with resign := e.resign + 1 }
  else if s = "stalemate" then { e with stalemate := e.stalemate + 1 }
  else if s = "timeout" then { e with timeout := e.timeout + 1 }
  else if s = "outoftime" then { e with outoftime := e.outoftime + 1 }
  else if s = "aborted" then { e with aborted := e.aborted + 1 }
  else if s = "draw" then { e with draw := e.draw + 1 }
  else { e with other := e.other + 1 }

/-- `(opp_player.get("user") or {}).get("name") or "?"` (line 186): a missing
or empty (falsy) name becomes `"?"`. -/
def oppName (p : Player) : String :=
  match p.uname with
  | some n => if n = "" then "?" else n
  | none => "?"

/-- Descending-by-rating preorder used by `top_wins.sort(key=.., reverse=True)`. -/
def rTop : TopWin → TopWin → Prop := fun a b => b.1 ≤ a.1

instance : DecidableRel rTop := fun a b => inferInstanceAs (Decidable (b.1 ≤ a.1))

instance : IsTotal TopWin rTop := ⟨fun a b => le_total b.1 a.1⟩

instance : IsTrans TopWin rTop := ⟨fun _ _ _ h1 h2 => le_trans h2 h1⟩

/-- Lines 187-190: append the new entry, stable-sort descending by rating,
and `pop()` the last element if the list now exceeds length 3. -/
def topUpd (tw : List TopWin) (e : TopWin) : List TopWin :=
  let l := List.insertionSort rTop (tw ++ [e])
  if 3 < l.length then l.dropLast else l

/-- `bucket = (opp_rating // 100) * 100` (line 182, floor division). -/
def bucketOf (r : Int) : Int := (Int.fdiv r 100) * 100

/-- Lines 179-181: per-speed opponent rating sum/count. -/
def bumpBySpeed (ob : OppBySpeed) (sp : Option String) (r : Int) : OppBySpeed :=
  if sp = some "bullet" then
    { ob with bullet := ⟨ob.bullet.sum + r, ob.bullet.count + 1⟩ }
  else if sp = some "blitz" then
    { ob with blitz := ⟨ob.blitz.sum + r, ob.blitz.count + 1⟩ }
  else if sp = some "rapid" then
    { ob with rapid := ⟨ob.rapid.sum + r, ob.rapid.count + 1⟩ }
  else if sp = some "classical" then
    { ob with classical := ⟨ob.classical.sum + r, ob.classical.count + 1⟩ }
  else ob

/-- Line 101: `stats["total"] += 1`. -/
def totalStage (st : AggState) : AggState :=
  { st with stats := { st.stats with total := st.stats.total + 1 } }

/-- Lines 107-113: timestamp buffer and month/weekday/hour histograms. -/
def tsStage (g : Game) (st : AggState) : AggState :=
  match chooseTs g with
  | some t =>
      { st with
        stats := { st.stats with
          month_counts := bump st.stats.month_counts (monthIdxOf t)
          wday_counts := bump st.stats.wday_counts (wdayIdxOf t)
          hour_counts := bump st.stats.hour_counts (hourIdxOf t) }
        timestamps := st.timestamps ++ [t] }
  | none => st

/-- Lines 115-119: speed counters. -/
def speedStage (g : Game) (st : AggState) : AggState :=
  let s := st.stats
  let s :=
    if g.speed = some "bullet" then
      { s with speed_counts := { s.speed_counts with bullet := s.speed_counts.bullet + 1 } }
    else if g.speed = some "blitz" then
      { s with speed_counts := { s.speed_counts with blitz := s.speed_counts.blitz + 1 } }
    else if g.speed = some "rapid" then
      { s with speed_counts := { s.speed_counts with rapid := s.speed_counts.rapid + 1 } }
    else if g.speed = some "classical" then
      { s with speed_counts := { s.speed_counts with classical := s.speed_counts.classical + 1 } }
    else { s with other_speeds := s.other_speeds + 1 }
  { st with stats := s }

/-- Lines 148-162: outcome bookkeeping and the timeline buffer, only when
the subject is identified with a color. -/
def resultStage (uL : String) (g : Game) (st : AggState) : AggState :=
  match userColorOf uL g with
  | some uc =>
      let o := outcomeVal g uc
      { st with
        stats := { st.stats with
          results := bumpResults st.stats.results o
          color_results := bumpColorResults st.stats.color_results uc o }
        timeline := st.timeline ++ [((chooseTs g).getD 0, o)] }
  | none => st

/-- Lines 164-171: ending histogram and flag-fall records. -/
def endingStage (uL : String) (g : Game) (st : AggState) : AggState :=
  let s := statusOf g
  if s = "" then st
  else
    let st1 := { st with stats := { st.stats with endings := bumpEndings st.stats.endings s } }
    if s = "timeout" ∨ s = "outoftime" then
      if outcomeOf uL g = some "win" then
        { st1 with stats := { st1.stats with timeout_wins := st1.stats.timeout_wins + 1 } }
      else if outcomeOf uL g = some "loss" then
        { st1 with stats := { st1.stats with timeout_losses := st1.stats.timeout_losses + 1 } }
      else st1
    else st1

/-- Lines 173-190: opponent-rating statistics and `top_wins`. -/
def oppStage (uL : String) (g : Game) (st : AggState) : AggState :=
  match userColorOf uL g with
  | some uc =>
      let opp := if uc = "white" then g.black else g.white
      match opp.rating with
      | some r =>
          let s := st.stats
          let s := { s with
            opponent_rating_sum := s.opponent_rating_sum + r
            opponent_rating_count := s.opponent_rating_count + 1 }
          let s := { s with opponent_by_speed := bumpBySpeed s.opponent_by_speed g.speed r }
          let s := { s with
            opponent_hist := fun b => if b = bucketOf r then s.opponent_hist b + 1 else s.opponent_hist b }
          let s :=
            if outcomeOf uL g = some "win" then
              { s with top_wins := topUpd s.top_wins (r, oppName opp, g.gid) }
            else s
          { st with stats := s }
      | none => st
  | none => st

/-- One iteration of the `for raw_line in response` loop (lines 98-190):
a whitespace-only line is skipped before `total` is counted; a line that
fails decoding or JSON parsing counts toward `total` only; a parsed game
goes through all the statistics stages in source order. -/
def ingest (uL : String) (st : AggState) (l : Line) : AggState :=
  match l with
  | .blank => st
  | .malformed => totalStage st
  | .game g =>
      oppStage uL g (endingStage uL g (resultStage uL g (speedStage g (tsStage g (totalStage st)))))

/-- The fresh accumulator of lines 54-91. -/
def initialStats : Stats where
  total := 0
  speed_counts := ⟨0, 0, 0, 0⟩
  other_speeds := 0
  results := ⟨0, 0, 0⟩
  color_results := ⟨⟨0, 0, 0⟩, ⟨0, 0, 0⟩⟩
  endings := ⟨0, 0, 0, 0, 0, 0, 0, 0⟩
  timeout_wins := 0
  timeout_losses := 0
  opponent_rating_sum := 0
  opponent_rating_count := 0
  opponent_by_speed := ⟨⟨0, 0⟩, ⟨0, 0⟩, ⟨0, 0⟩, ⟨0, 0⟩⟩
  opponent_hist := fun _ => 0
  top_wins := []
  month_counts := fun _ => 0
  wday_counts := fun _ => 0
  hour_counts := fun _ => 0
  longest_win_streak := 0
  longest_loss_streak := 0
  longest_gap_ms := 0

/-- Empty accumulator and empty `timeline`/`timestamps` buffers (lines 93-94). -/
def initialState : AggState := ⟨initialStats, [], []⟩

/-- Ascending-by-timestamp preorder of `timeline.sort(key=lambda x: x[0])`. -/
def rTL : (Int × String) → (Int × String) → Prop := fun a b => a.1 ≤ b.1

instance : DecidableRel rTL := fun a b => inferInstanceAs (Decidable (a.1 ≤ b.1))

instance : IsTotal (Int × String) rTL := ⟨fun a b => le_total a.1 b.1⟩

instance : IsTrans (Int × String) rTL := ⟨fun _ _ _ h1 h2 => le_trans h1 h2⟩

/-- The stable sort of the timeline buffer (line 197). -/
def sortTL (tl : List (Int × String)) : List (Int × String) := List.insertionSort rTL tl

/-- One step of the streak walk (lines 200-211): the two current runs are
updated from the outcome, then both maxima are refreshed.  State is
`(longest_win, longest_loss, current_win, current_loss)`. -/
def streakStep (acc : Nat × Nat × Nat × Nat) (p : Int × String) : Nat × Nat × Nat × Nat :=
  let (lw, ll, cw, cl) := acc
  let (cw', cl') :=
    if p.2 = "win" then (cw + 1, 0)
    else if p.2 = "loss" then (0, cl + 1)
    else (0, 0)
  (max lw cw', max ll cl', cw', cl')

/-- `max(gaps)` over a nonempty list; the fallback mirrors that the code only
evaluates it when the list is nonempty. -/
def maxList (l : List Int) (dflt : Int) : Int :=
  match l with
  | [] => dflt
  | g :: gs => gs.foldl max g

/-- Lines 196-218: the finalization pass.  If the timeline is nonempty, sort
it by timestamp and walk it once for the two streak maxima; if at least two
timestamps were buffered, sort them and record the largest adjacent gap. -/
def finalize (st : AggState) : Stats :=
  let s := st.stats
  let s :=
    match st.timeline with
    | [] => s
    | _ :: _ =>
        let w := (sortTL st.timeline).foldl streakStep (0, 0, 0, 0)
        { s with longest_win_streak := w.1, longest_loss_streak := w.2.1 }
  if 1 < st.timestamps.length then
    let ss := List.insertionSort (· ≤ ·) st.timestamps
    let gaps := List.zipWith (· - ·) ss.tail ss
    { s with longest_gap_ms := maxList gaps s.longest_gap_ms }
  else s

/-- The streaming phase of `fetch_game_stats`: fold the loop body over the
delivered lines, comparing identifiers against the lowercased username. -/
def ingestAll (username : String) (ls : List Line) : AggState :=
  ls.foldl (ingest (lowerStr username)) initialState

/-- `fetch_game_stats`, restricted to the aggregation it performs on the
response stream: ingest every line, then finalize. -/
def fetch_game_stats (username : String) (ls : List Line) : Stats :=
  finalize (ingestAll username ls)

/-! ### Per-line contribution functions

Each counter-like field of `Stats` is updated by `ingest` with an additive
contribution that depends only on the line (and the subject username), never
on the accumulated state.  The `d...` functions below compute those
contributions; the lemmas that follow prove that `ingest` really adds them. -/

def SpeedCounts.add (a b : SpeedCounts) : SpeedCounts :=
  ⟨a.bullet + b.bullet, a.blitz + b.blitz, a.rapid + b.rapid, a.classical + b.classical⟩

def Results.add (a b : Results) : Results :=
  ⟨a.win + b.win, a.loss + b.loss, a.draw + b.draw⟩

def ColorResults.add (a b : ColorResults) : ColorResults :=
  ⟨a.white.add b.white, a.black.add b.black⟩

def Endings.add (a b : Endings) : Endings :=
  ⟨a.mate + b.mate, a.resign + b.resign, a.stalemate + b.stalemate, a.timeout + b.timeout,
   a.outoftime + b.outoftime, a.aborted + b.aborted, a.draw + b.draw, a.other + b.other⟩

def SumCount.add (a b : SumCount) : SumCount := ⟨a.sum + b.sum, a.count + b.count⟩

def OppBySpeed.add (a b : OppBySpeed) : OppBySpeed :=
  ⟨a.bullet.add b.bullet, a.blitz.add b.blitz, a.rapid.add b.rapid, a.classical.add b.classical⟩

def addFun {κ : Type} (f g : κ → Nat) : κ → Nat := fun i => f i + g i

def zeroSC : SpeedCounts := ⟨0, 0, 0, 0⟩
def zeroR : Results := ⟨0, 0, 0⟩
def zeroCR : ColorResults := ⟨zeroR, zeroR⟩
def zeroE : Endings := ⟨0, 0, 0, 0, 0, 0, 0, 0⟩
def zeroOB : OppBySpeed := ⟨⟨0, 0⟩, ⟨0, 0⟩, ⟨0, 0⟩, ⟨0, 0⟩⟩

/-- Contribution of a line to `total`. -/
def dTotal (l : Line) : Nat :=
  match l with
  | .blank => 0
  | .malformed => 1
  | .game _ => 1

/-- Contribution of a line to `speed_counts`. -/
def dSpeed (l : Line) : SpeedCounts :=
  match l with
  | .game g =>
      if g.speed = some "bullet" then ⟨1, 0, 0, 0⟩
      else if g.speed = some "blitz" then ⟨0, 1, 0, 0⟩
      else if g.speed = some "rapid" then ⟨0, 0, 1, 0⟩
      else if g.speed = some "classical" then ⟨0, 0, 0, 1⟩
      else zeroSC
  | _ => zeroSC

/-- Contribution of a line to `other_speeds`. -/
def dOther (l : Line) : Nat :=
  match l with
  | .game g =>
      if g.speed = some "bullet" ∨ g.speed = some "blitz" ∨ g.speed = some "rapid" ∨
         g.speed = some "classical" then 0 else 1
  | _ => 0

/-- Contribution of a line to `results`. -/
def dResults (uL : String) (l : Line) : Results :=
  match l with
  | .game g =>
      match userColorOf uL g with
      | some uc => bumpResults zeroR (outcomeVal g uc)
      | none => zeroR
  | _ => zeroR

/-- Contribution of a line to `color_results`. -/
def dColorResults (uL : String) (l : Line) : ColorResults :=
  match l with
  | .game g =>
      match userColorOf uL g with
      | some uc => bumpColorResults zeroCR uc (outcomeVal g uc)
      | none => zeroCR
  | _ => zeroCR

/-- Contribution of a line to `endings`. -/
def dEndings (l : Line) : Endings :=
  match l with
  | .game g => if statusOf g = "" then zeroE else bumpEndings zeroE (statusOf g)
  | _ => zeroE

/-- Contribution of a line to `timeout_wins`. -/
def dTimeoutWins (uL : String) (l : Line) : Nat :=
  match l with
  | .game g =>
      if (statusOf g = "timeout" ∨ statusOf g = "outoftime") ∧ outcomeOf uL g = some "win"
      then 1 else 0
  | _ => 0

/-- Contribution of a line to `timeout_losses`. -/
def dTimeoutLosses (uL : String) (l : Line) : Nat :=
  match l with
  | .game g =>
      if (statusOf g = "timeout" ∨ statusOf g = "outoftime") ∧ outcomeOf uL g = some "loss"
      then 1 else 0
  | _ => 0

/-- The opponent's rating as seen by lines 173-176, if the subject is
identified and the rating is an integer. -/
def oppRatingOf (uL : String) (g : Game) : Option Int :=
  match userColorOf uL g with
  | some uc => (if uc = "white" then g.black else g.white).rating
  | none => none

/-- Contribution of a line to `opponent_rating_sum`. -/
def dOppSum (uL : String) (l : Line) : Int :=
  match l with
  | .game g => (oppRatingOf uL g).getD 0
  | _ => 0

/-- Contribution of a line to `opponent_rating_count`. -/
def dOppCount (uL : String) (l : Line) : Nat :=
  match l with
  | .game g => match oppRatingOf uL g with | some _ => 1 | none => 0
  | _ => 0

/-- Contribution of a line to `opponent_by_speed`. -/
def dBySpeed (uL : String) (l : Line) : OppBySpeed :=
  match l with
  | .game g =>
      match oppRatingOf uL g with
      | some r => bumpBySpeed zeroOB g.speed r
      | none => zeroOB
  | _ => zeroOB

/-- Contribution of a line to `opponent_hist`. -/
def dHist (uL : String) (l : Line) : Int → Nat :=
  match l with
  | .game g =>
      match oppRatingOf uL g with
      | some r => fun b => if b = bucketOf r then 1 else 0
      | none => fun _ => 0
  | _ => fun _ => 0

/-- Contribution of a line to `month_counts`. -/
def dMonth (l : Line) : Nat → Nat :=
  match l with
  | .game g =>
      match chooseTs g with
      | some t => fun i => if i = monthIdxOf t then 1 else 0
      | none => fun _ => 0
  | _ => fun _ => 0

/-- Contribution of a line to `wday_counts`. -/
def dWday (l : Line) : Nat → Nat :=
  match l with
  | .game g =>
      match chooseTs g with
      | some t => fun i => if i = wdayIdxOf t then 1 else 0
      | none => fun _ => 0
  | _ => fun _ => 0

/-- Contribution of a line to `hour_counts`. -/
def dHour (l : Line) : Nat → Nat :=
  match l with
  | .game g =>
      match chooseTs g with
      | some t => fun i => if i = hourIdxOf t then 1 else 0
      | none => fun _ => 0
  | _ => fun _ => 0

/-- Timestamps a line appends to the timestamp buffer. -/
def tsDelta (l : Line) : List Int :=
  match l with
  | .game g => match chooseTs g with | some t => [t] | none => []
  | _ => []

/-- Timeline entries a line appends to the timeline buffer. -/
def tlDelta (uL : String) (l : Line) : List (Int × String) :=
  match l with
  | .game g =>
      match userColorOf uL g with
      | some uc => [((chooseTs g).getD 0, outcomeVal g uc)]
      | none => []
  | _ => []

/-- `top_wins` candidate entries contributed by a line (at most one): the
subject must be identified, the opponent rating present, and the outcome a
win. -/
def winDelta (uL : String) (l : Line) : List TopWin :=
  match l with
  | .game g =>
      match userColorOf uL g with
      | some uc =>
          match (if uc = "white" then g.black else g.white).rating with
          | some r =>
              if outcomeOf uL g = some "win"
              then [(r, oppName (if uc = "white" then g.black else g.white), g.gid)]
              else []
          | none => []
      | none => []
  | _ => []

/-! ### Algebra of the contribution operations -/

@[simp] theorem results_add_zero (r : Results) : r.add zeroR = r := by
  cases r; simp [Results.add, zeroR]

@[simp] theorem speed_counts_add_zero (s : SpeedCounts) : s.add zeroSC = s := by
  cases s; simp [SpeedCounts.add, zeroSC]

@[simp] theorem color_results_add_zero (c : ColorResults) : c.add zeroCR = c := by
  cases c; simp [ColorResults.add, zeroCR]

@[simp] theorem endings_add_zero (e : Endings) : e.add zeroE = e := by
  cases e; simp [Endings.add, zeroE]

@[simp] theorem sum_count_add_zero (s : SumCount) : s.add ⟨0, 0⟩ = s := by
  cases s; simp [SumCount.add]

@[simp] theorem opp_by_speed_add_zero (o : OppBySpeed) : o.add zeroOB = o := by
  cases o; simp [OppBySpeed.add, zeroOB]

@[simp] theorem addFun_zero {κ : Type} (f : κ → Nat) : addFun f (fun _ => 0) = f := by
  funext i; simp [addFun]

theorem results_add_right_comm (c a b : Results) : (c.add a).add b = (c.add b).add a := by
  cases c; cases a; cases b; simp [Results.add]; omega

theorem speed_counts_add_right_comm (c a b : SpeedCounts) :
    (c.add a).add b = (c.add b).add a := by
  cases c; cases a; cases b; simp [SpeedCounts.add]; omega

theorem color_results_add_right_comm (c a b : ColorResults) :
    (c.add a).add b = (c.add b).add a := by
  cases c; cases a; cases b; simp [ColorResults.add, results_add_right_comm]

theorem endings_add_right_comm (c a b : Endings) : (c.add a).add b = (c.add b).add a := by
  cases c; cases a; cases b; simp [Endings.add]; omega

theorem sum_count_add_right_comm (c a b : SumCount) : (c.add a).add b = (c.add b).add a := by
  cases c; cases a; cases b; simp [SumCount.add]; omega

theorem opp_by_speed_add_right_comm (c a b : OppBySpeed) :
    (c.add a).add b = (c.add b).add a := by
  cases c; cases a; cases b; simp [OppBySpeed.add, sum_count_add_right_comm]

theorem addFun_right_comm {κ : Type} (c a b : κ → Nat) :
    addFun (addFun c a) b = addFun (addFun c b) a := by
  funext i; simp [addFun]; omega

/-- `bumpResults` adds a state-independent contribution. -/
theorem bumpResults_add (r : Results) (o : String) :
    bumpResults r o = r.add (bumpResults zeroR o) := by
  cases r; unfold bumpResults; split_ifs <;> simp [Results.add, zeroR]

/-- `bumpColorResults` adds a state-independent contribution. -/
theorem bumpColorResults_add (cr : ColorResults) (uc o : String) :
    bumpColorResults cr uc o = cr.add (bumpColorResults zeroCR uc o) := by
  cases cr; unfold bumpColorResults; split_ifs <;>
    simp [ColorResults.add, zeroCR, ← bumpResults_add]

/-- `bumpEndings` adds a state-independent contribution. -/
theorem bumpEndings_add (e : Endings) (s : String) :
    bumpEndings e s = e.add (bumpEndings zeroE s) := by
  cases e; unfold bumpEndings; split_ifs <;> simp [Endings.add, zeroE]

/-- `bumpBySpeed` adds a state-independent contribution. -/
theorem bumpBySpeed_add (ob : OppBySpeed) (sp : Option String) (r : Int) :
    bumpBySpeed ob sp r = ob.add (bumpBySpeed zeroOB sp r) := by
  cases ob; unfold bumpBySpeed; split_ifs <;>
    simp [OppBySpeed.add, SumCount.add, zeroOB]

/-- `bump` adds a state-independent contribution. -/
theorem bump_add (f : Nat → Nat) (i : Nat) :
    bump f i = addFun f (fun j => if j = i then 1 else 0) := by
  funext j; unfold bump addFun; by_cases h : j = i <;> simp [h]

theorem hist_bump_eq (f : Int → Nat) (c : Int) :
    (fun b => if b = c then f b + 1 else f b) = addFun f (fun b => if b = c then 1 else 0) := by
  funext b; by_cases h : b = c <;> simp [addFun, h]

/-! ### Each stage adds its state-independent contribution -/

theorem totalStage_eq (st : AggState) :
    totalStage st = { st with stats := { st.stats with total := st.stats.total + 1 } } := rfl

theorem tsStage_eq (g : Game) (st : AggState) :
    tsStage g st =
      { st with
        stats := { st.stats with
          month_counts := addFun st.stats.month_counts (dMonth (.game g))
          wday_counts := addFun st.stats.wday_counts (dWday (.game g))
          hour_counts := addFun st.stats.hour_counts (dHour (.game g)) }
        timestamps := st.timestamps ++ tsDelta (.game g) } := by
  cases h : chooseTs g <;>
    simp [tsStage, h, dMonth, dWday, dHour, tsDelta, bump_add]

theorem speedStage_eq (g : Game) (st : AggState) :
    speedStage g st =
      { st with
        stats := { st.stats with
          speed_counts := st.stats.speed_counts.add (dSpeed (.game g))
          other_speeds := st.stats.other_speeds + dOther (.game g) } } := by
  simp only [speedStage, dSpeed, dOther]
  split_ifs <;> simp_all [SpeedCounts.add, zeroSC]

theorem resultStage_eq (uL : String) (g : Game) (st : AggState) :
    resultStage uL g st =
      { st with
        stats := { st.stats with
          results := st.stats.results.add (dResults uL (.game g))
          color_results := st.stats.color_results.add (dColorResults uL (.game g)) }
        timeline := st.timeline ++ tlDelta uL (.game g) } := by
  cases h : userColorOf uL g <;>
    simp [resultStage, h, dResults, dColorResults, tlDelta, ← bumpResults_add,
      ← bumpColorResults_add]

theorem endingStage_eq (uL : String) (g : Game) (st : AggState) :
    endingStage uL g st =
      { st with
        stats := { st.stats with
          endings := st.stats.endings.add (dEndings (.game g))
          timeout_wins := st.stats.timeout_wins + dTimeoutWins uL (.game g)
          timeout_losses := st.stats.timeout_losses + dTimeoutLosses uL (.game g) } } := by
  simp only [endingStage, dEndings, dTimeoutWins, dTimeoutLosses]
  split_ifs <;> simp_all [← bumpEndings_add]

theorem oppStage_eq (uL : String) (g : Game) (st : AggState) :
    oppStage uL g st =
      { st with
        stats := { st.stats with
          opponent_rating_sum := st.stats.opponent_rating_sum + dOppSum uL (.game g)
          opponent_rating_count := st.stats.opponent_rating_count + dOppCount uL (.game g)
          opponent_by_speed := st.stats.opponent_by_speed.add (dBySpeed uL (.game g))
          opponent_hist := addFun st.stats.opponent_hist (dHist uL (.game g))
          top_wins := List.foldl topUpd st.stats.top_wins (winDelta uL (.game g)) } } := by
  cases huc : userColorOf uL g with
  | none => simp [oppStage, huc, dOppSum, dOppCount, dBySpeed, dHist, winDelta, oppRatingOf]
  | some uc =>
    cases hr : (if uc = "white" then g.black else g.white).rating with
    | none =>
      simp [oppStage, huc, hr, dOppSum, dOppCount, dBySpeed, dHist, winDelta, oppRatingOf]
    | some r =>
      by_cases hw : outcomeOf uL g = some "win" <;>
        simp [oppStage, huc, hr, hw, dOppSum, dOppCount, dBySpeed, dHist, winDelta,
          oppRatingOf, ← bumpBySpeed_add] <;>
        exact hist_bump_eq st.stats.opponent_hist (bucketOf r)

/-- `ingest` in one equation: every counter field receives a state-independent
additive contribution, the buffers receive state-independent appends, and
`top_wins` folds the line's win candidates through `topUpd`. -/
theorem ingest_eq (uL : String) (st : AggState) (l : Line) :
    ingest uL st l =
      { st with
        stats := { st.stats with
          total := st.stats.total + dTotal l
          speed_counts := st.stats.speed_counts.add (dSpeed l)
          other_speeds := st.stats.other_speeds + dOther l
          results := st.stats.results.add (dResults uL l)
          color_results := st.stats.color_results.add (dColorResults uL l)
          endings := st.stats.endings.add (dEndings l)
          timeout_wins := st.stats.timeout_wins + dTimeoutWins uL l
          timeout_losses := st.stats.timeout_losses + dTimeoutLosses uL l
          opponent_rating_sum := st.stats.opponent_rating_sum + dOppSum uL l
          opponent_rating_count := st.stats.opponent_rating_count + dOppCount uL l
          opponent_by_speed := st.stats.opponent_by_speed.add (dBySpeed uL l)
          opponent_hist := addFun st.stats.opponent_hist (dHist uL l)
          top_wins := List.foldl topUpd st.stats.top_wins (winDelta uL l)
          month_counts := addFun st.stats.month_counts (dMonth l)
          wday_counts := addFun st.stats.wday_counts (dWday l)
          hour_counts := addFun st.stats.hour_counts (dHour l) }
        timeline := st.timeline ++ tlDelta uL l
        timestamps := st.timestamps ++ tsDelta l } := by
  cases l with
  | blank =>
      simp [ingest, dTotal, dSpeed, dOther, dResults, dColorResults, dEndings,
        dTimeoutWins, dTimeoutLosses, dOppSum, dOppCount, dBySpeed, dHist, dMonth,
        dWday, dHour, tlDelta, tsDelta, winDelta]
  | malformed =>
      simp [ingest, totalStage, dTotal, dSpeed, dOther, dResults, dColorResults, dEndings,
        dTimeoutWins, dTimeoutLosses, dOppSum, dOppCount, dBySpeed, dHist, dMonth,
        dWday, dHour, tlDelta, tsDelta, winDelta]
  | game g =>
      simp only [ingest, totalStage_eq, tsStage_eq, speedStage_eq, resultStage_eq,
        endingStage_eq, oppStage_eq, dTotal]

/-! ### Folding the stream -/

/-- Generic simulation: a projection that `step` updates by a
state-independent contribution is computed by folding the contributions. -/
theorem foldl_sim {σ β γ δ : Type} (step : σ → β → σ) (proj : σ → γ)
    (d : β → δ) (op : γ → δ → γ)
    (h : ∀ s b, proj (step s b) = op (proj s) (d b)) (ls : List β) :
    ∀ s : σ, proj (List.foldl step s ls) = List.foldl op (proj s) (ls.map d) := by
  induction ls with
  | nil => intro s; rfl
  | cons b ls ih => intro s; simp [List.foldl_cons, h, ih]

/-- A fold by a right-commutative operation is invariant under permutation
of the folded list. -/
theorem foldl_perm_of_comm {γ δ : Type} (op : γ → δ → γ)
    (hc : ∀ c a b, op (op c a) b = op (op c b) a)
    {l1 l2 : List δ} (p : l1.Perm l2) : ∀ c, List.foldl op c l1 = List.foldl op c l2 := by
  induction p with
  | nil => intro c; rfl
  | cons x _ ih => intro c; simp only [List.foldl_cons]; exact ih _
  | swap x y l => intro c; simp only [List.foldl_cons]; rw [hc]
  | trans _ _ ih1 ih2 => intro c; rw [ih1, ih2]

/-- Combined: a state-independent additively-updated projection of the fold
of `ingest` is invariant under permuting the delivered lines. -/
theorem ingest_foldl_proj_perm {γ δ : Type} (uL : String) (proj : AggState → γ)
    (d : Line → δ) (op : γ → δ → γ)
    (hstep : ∀ s b, proj (ingest uL s b) = op (proj s) (d b))
    (hc : ∀ c a b, op (op c a) b = op (op c b) a)
    {ls1 ls2 : List Line} (p : ls1.Perm ls2) (init : AggState) :
    proj (List.foldl (ingest uL) init ls1) = proj (List.foldl (ingest uL) init ls2) := by
  rw [foldl_sim _ proj d op hstep, foldl_sim _ proj d op hstep]
  exact foldl_perm_of_comm op hc (p.map d) _

theorem ingest_total (uL : String) (st : AggState) (l : Line) :
    (ingest uL st l).stats.total = st.stats.total + dTotal l := by rw [ingest_eq]

theorem ingest_speed_counts (uL : String) (st : AggState) (l : Line) :
    (ingest uL st l).stats.speed_counts = st.stats.speed_counts.add (dSpeed l) := by
  rw [ingest_eq]

theorem ingest_other_speeds (uL : String) (st : AggState) (l : Line) :
    (ingest uL st l).stats.other_speeds = st.stats.other_speeds + dOther l := by
  rw [ingest_eq]

theorem ingest_results (uL : String) (st : AggState) (l : Line) :
    (ingest uL st l).stats.results = st.stats.results.add (dResults uL l) := by
  rw [ingest_eq]

theorem ingest_color_results (uL : String) (st : AggState) (l : Line) :
    (ingest uL st l).stats.color_results = st.stats.color_results.add (dColorResults uL l) := by
  rw [ingest_eq]

theorem ingest_endings (uL : String) (st : AggState) (l : Line) :
    (ingest uL st l).stats.endings = st.stats.endings.add (dEndings l) := by rw [ingest_eq]

theorem ingest_timeout_wins (uL : String) (st : AggState) (l : Line) :
    (ingest uL st l).stats.timeout_wins = st.stats.timeout_wins + dTimeoutWins uL l := by
  rw [ingest_eq]

theorem ingest_timeout_losses (uL : String) (st : AggState) (l : Line) :
    (ingest uL st l).stats.timeout_losses = st.stats.timeout_losses + dTimeoutLosses uL l := by
  rw [ingest_eq]

theorem ingest_opp_sum (uL : String) (st : AggState) (l : Line) :
    (ingest uL st l).stats.opponent_rating_sum = st.stats.opponent_rating_sum + dOppSum uL l := by
  rw [ingest_eq]

theorem ingest_opp_count (uL : String) (st : AggState) (l : Line) :
    (ingest uL st l).stats.opponent_rating_count
      = st.stats.opponent_rating_count + dOppCount uL l := by
  rw [ingest_eq]

theorem ingest_by_speed (uL : String) (st : AggState) (l : Line) :
    (ingest uL st l).stats.opponent_by_speed
      = st.stats.opponent_by_speed.add (dBySpeed uL l) := by
  rw [ingest_eq]

theorem ingest_hist (uL : String) (st : AggState) (l : Line) :
    (ingest uL st l).stats.opponent_hist = addFun st.stats.opponent_hist (dHist uL l) := by
  rw [ingest_eq]

theorem ingest_month (uL : String) (st : AggState) (l : Line) :
    (ingest uL st l).stats.month_counts = addFun st.stats.month_counts (dMonth l) := by
  rw [ingest_eq]

theorem ingest_wday (uL : String) (st : AggState) (l : Line) :
    (ingest uL st l).stats.wday_counts = addFun st.stats.wday_counts (dWday l) := by
  rw [ingest_eq]

theorem ingest_hour (uL : String) (st : AggState) (l : Line) :
    (ingest uL st l).stats.hour_counts = addFun st.stats.hour_counts (dHour l) := by
  rw [ingest_eq]

theorem ingest_top_wins (uL : String) (st : AggState) (l : Line) :
    (ingest uL st l).stats.top_wins
      = List.foldl topUpd st.stats.top_wins (winDelta uL l) := by
  rw [ingest_eq]

theorem ingest_timeline (uL : String) (st : AggState) (l : Line) :
    (ingest uL st l).timeline = st.timeline ++ tlDelta uL l := by rw [ingest_eq]

theorem ingest_timestamps (uL : String) (st : AggState) (l : Line) :
    (ingest uL st l).timestamps = st.timestamps ++ tsDelta l := by rw [ingest_eq]

theorem ingest_lws (uL : String) (st : AggState) (l : Line) :
    (ingest uL st l).stats.longest_win_streak = st.stats.longest_win_streak := by
  rw [ingest_eq]

theorem ingest_lls (uL : String) (st : AggState) (l : Line) :
    (ingest uL st l).stats.longest_loss_streak = st.stats.longest_loss_streak := by
  rw [ingest_eq]

theorem ingest_gap (uL : String) (st : AggState) (l : Line) :
    (ingest uL st l).stats.longest_gap_ms = st.stats.longest_gap_ms := by
  rw [ingest_eq]

/-- The timeline buffer after the streaming phase. -/
theorem foldl_ingest_timeline (uL : String) (ls : List Line) :
    ∀ st : AggState,
      (List.foldl (ingest uL) st ls).timeline = st.timeline ++ ls.flatMap (tlDelta uL) := by
  induction ls with
  | nil => intro st; simp
  | cons b ls ih =>
      intro st
      simp only [List.foldl_cons, List.flatMap_cons]
      rw [ih, ingest_timeline, List.append_assoc]

/-- The timestamp buffer after the streaming phase. -/
theorem foldl_ingest_timestamps (uL : String) (ls : List Line) :
    ∀ st : AggState,
      (List.foldl (ingest uL) st ls).timestamps = st.timestamps ++ ls.flatMap tsDelta := by
  induction ls with
  | nil => intro st; simp
  | cons b ls ih =>
      intro st
      simp only [List.foldl_cons, List.flatMap_cons]
      rw [ih, ingest_timestamps, List.append_assoc]

/-- `top_wins` after the streaming phase: a fold of `topUpd` over the win
candidates, in delivery order. -/
theorem foldl_ingest_top_wins (uL : String) (ls : List Line) :
    ∀ st : AggState,
      (List.foldl (ingest uL) st ls).stats.top_wins
        = List.foldl topUpd st.stats.top_wins (ls.flatMap (winDelta uL)) := by
  induction ls with
  | nil => intro st; simp
  | cons b ls ih =>
      intro st
      simp only [List.foldl_cons, List.flatMap_cons]
      rw [ih, ingest_top_wins, List.foldl_append]

theorem foldl_ingest_lws (uL : String) (ls : List Line) :
    ∀ st : AggState,
      (List.foldl (ingest uL) st ls).stats.longest_win_streak
        = st.stats.longest_win_streak := by
  induction ls with
  | nil => intro st; rfl
  | cons b ls ih => intro st; simp only [List.foldl_cons]; rw [ih, ingest_lws]

theorem foldl_ingest_lls (uL : String) (ls : List Line) :
    ∀ st : AggState,
      (List.foldl (ingest uL) st ls).stats.longest_loss_streak
        = st.stats.longest_loss_streak := by
  induction ls with
  | nil => intro st; rfl
  | cons b ls ih => intro st; simp only [List.foldl_cons]; rw [ih, ingest_lls]

theorem foldl_ingest_gap (uL : String) (ls : List Line) :
    ∀ st : AggState,
      (List.foldl (ingest uL) st ls).stats.longest_gap_ms = st.stats.longest_gap_ms := by
  induction ls with
  | nil => intro st; rfl
  | cons b ls ih => intro st; simp only [List.foldl_cons]; rw [ih, ingest_gap]

/-- `finalize` in one equation: it only writes the three order-sensitive
fields, each as described by lines 196-218. -/
theorem finalize_eq (st : AggState) :
    finalize st =
      { st.stats with
        longest_win_streak :=
          match st.timeline with
          | [] => st.stats.longest_win_streak
          | _ :: _ => ((sortTL st.timeline).foldl streakStep (0, 0, 0, 0)).1
        longest_loss_streak :=
          match st.timeline with
          | [] => st.stats.longest_loss_streak
          | _ :: _ => ((sortTL st.timeline).foldl streakStep (0, 0, 0, 0)).2.1
        longest_gap_ms :=
          if 1 < st.timestamps.length then
            maxList
              (List.zipWith (· - ·) (List.insertionSort (· ≤ ·) st.timestamps).tail
                (List.insertionSort (· ≤ ·) st.timestamps))
              st.stats.longest_gap_ms
          else st.stats.longest_gap_ms } := by
  simp only [finalize]
  cases st.timeline <;> split_ifs <;> rfl

/-! ### Line classification helpers used by the counting claims -/

/-- Whether a line is a parsed game record. -/
def Line.isGame (l : Line) : Bool :=
  match l with
  | .game _ => true
  | _ => false

/-- Whether a line reaches the loop body at all (is not whitespace-only). -/
def Line.isCounted (l : Line) : Bool :=
  match l with
  | .blank => false
  | _ => true

/-- Whether a line is a parsed game in which the subject is identified with
a color. -/
def identifiedB (uL : String) (l : Line) : Bool :=
  match l with
  | .game g => (userColorOf uL g).isSome
  | _ => false

theorem dTotal_eq_isCounted (l : Line) : dTotal l = if l.isCounted then 1 else 0 := by
  cases l <;> rfl

/-- Exactly one of the five speed counters is incremented per parsed game. -/
theorem dSpeed_sum (l : Line) :
    (dSpeed l).bullet + (dSpeed l).blitz + (dSpeed l).rapid + (dSpeed l).classical + dOther l
      = if l.isGame then 1 else 0 := by
  cases l with
  | blank => rfl
  | malformed => rfl
  | game g =>
      simp only [dSpeed, dOther, Line.isGame]
      split_ifs <;> simp_all [zeroSC]

/-- `outcomeVal` always yields one of the three result keys. -/
theorem outcomeVal_cases (g : Game) (uc : String) :
    outcomeVal g uc = "win" ∨ outcomeVal g uc = "loss" ∨ outcomeVal g uc = "draw" := by
  unfold outcomeVal; split_ifs <;> simp

/-- Exactly one of the three result counters is incremented per identified
game. -/
theorem dResults_sum (uL : String) (l : Line) :
    (dResults uL l).win + (dResults uL l).loss + (dResults uL l).draw
      = if identifiedB uL l then 1 else 0 := by
  cases l with
  | blank => rfl
  | malformed => rfl
  | game g =>
      cases h : userColorOf uL g with
      | none => simp [dResults, identifiedB, h, zeroR]
      | some uc =>
          rcases outcomeVal_cases g uc with ho | ho | ho <;>
            simp [dResults, identifiedB, h, bumpResults, ho, zeroR]

/-- Counting along the fold: `total` counts the non-blank lines. -/
theorem foldl_ingest_total (uL : String) (ls : List Line) :
    ∀ st : AggState,
      (List.foldl (ingest uL) st ls).stats.total
        = st.stats.total + (ls.filter (fun l => l.isCounted)).length := by
  induction ls with
  | nil => intro st; simp
  | cons b ls ih =>
      intro st
      simp only [List.foldl_cons]
      rw [ih, ingest_total, dTotal_eq_isCounted]
      cases b <;> simp [Line.isCounted, List.filter_cons] <;> omega

/-- Counting along the fold: the five speed counters count the parsed games. -/
theorem foldl_ingest_speedsum (uL : String) (ls : List Line) :
    ∀ st : AggState,
      ((List.foldl (ingest uL) st ls).stats.speed_counts.bullet
        + (List.foldl (ingest uL) st ls).stats.speed_counts.blitz
        + (List.foldl (ingest uL) st ls).stats.speed_counts.rapid
        + (List.foldl (ingest uL) st ls).stats.speed_counts.classical
        + (List.foldl (ingest uL) st ls).stats.other_speeds)
      = (st.stats.speed_counts.bullet + st.stats.speed_counts.blitz
        + st.stats.speed_counts.rapid + st.stats.speed_counts.classical
        + st.stats.other_speeds) + (ls.filter (fun l => l.isGame)).length := by
  induction ls with
  | nil => intro st; simp
  | cons b ls ih =>
      intro st
      simp only [List.foldl_cons]
      rw [ih, ingest_speed_counts, ingest_other_speeds]
      have h := dSpeed_sum b
      cases b <;>
        simp_all [Line.isGame, List.filter_cons, SpeedCounts.add] <;> omega

/-- Counting along the fold: the three result counters count the identified
games. -/
theorem foldl_ingest_ressum (uL : String) (ls : List Line) :
    ∀ st : AggState,
      ((List.foldl (ingest uL) st ls).stats.results.win
        + (List.foldl (ingest uL) st ls).stats.results.loss
        + (List.foldl (ingest uL) st ls).stats.results.draw)
      = (st.stats.results.win + st.stats.results.loss + st.stats.results.draw)
        + (ls.filter (fun l => identifiedB uL l)).length := by
  induction ls with
  | nil => intro st; simp
  | cons b ls ih =>
      intro st
      simp only [List.foldl_cons]
      rw [ih, ingest_results]
      have h := dResults_sum uL b
      by_cases hb : identifiedB uL b = true <;>
        simp_all [List.filter_cons, Results.add] <;> omega

/-- Pointwise-dominated boolean counts: the count is no larger, and equality
forces pointwise agreement on the list's members. -/
theorem filter_length_mono_eq {p q : Line → Bool}
    (h : ∀ l, p l = true → q l = true) (ls : List Line) :
    (ls.filter p).length ≤ (ls.filter q).length ∧
      ((ls.filter p).length = (ls.filter q).length →
        ∀ l ∈ ls, q l = true → p l = true) := by
  induction ls with
  | nil => simp
  | cons b ls ih =>
      obtain ⟨ih1, ih2⟩ := ih
      by_cases hp : p b = true
      · have hq := h b hp
        constructor
        · simp only [List.filter_cons, hp, hq, if_pos, List.length_cons]
          omega
        · intro he l hl
          simp only [List.filter_cons, hp, hq, if_pos, List.length_cons] at he
          rcases List.mem_cons.1 hl with rfl | hl
          · intro _; exact hp
          · exact fun hql => ih2 (by omega) l hl hql
      · by_cases hq : q b = true
        · constructor
          · simp only [List.filter_cons, hp, hq, List.length_cons]
            simp only [if_neg, if_pos, Bool.false_eq_true, not_false_iff, List.length_cons]
            omega
          · intro he
            exfalso
            simp only [List.filter_cons, hp, hq, List.length_cons] at he
            simp only [if_neg, if_pos, Bool.false_eq_true, not_false_iff,
              List.length_cons] at he
            omega
        · constructor
          · simp only [List.filter_cons, hp, hq, if_neg, Bool.false_eq_true, not_false_iff]
            exact ih1
          · intro he l hl
            simp only [List.filter_cons, hp, hq, if_neg, Bool.false_eq_true,
              not_false_iff] at he
            rcases List.mem_cons.1 hl with rfl | hl
            · intro hqb; exact absurd hqb hq
            · exact fun hql => ih2 he l hl hql

/-! ### Projections of the returned statistics -/

theorem fetch_total (u : String) (ls : List Line) :
    (fetch_game_stats u ls).total = (ingestAll u ls).stats.total := by
  rw [fetch_game_stats, finalize_eq]

theorem fetch_speed_counts (u : String) (ls : List Line) :
    (fetch_game_stats u ls).speed_counts = (ingestAll u ls).stats.speed_counts := by
  rw [fetch_game_stats, finalize_eq]

theorem fetch_other_speeds (u : String) (ls : List Line) :
    (fetch_game_stats u ls).other_speeds = (ingestAll u ls).stats.other_speeds := by
  rw [fetch_game_stats, finalize_eq]

theorem fetch_results (u : String) (ls : List Line) :
    (fetch_game_stats u ls).results = (ingestAll u ls).stats.results := by
  rw [fetch_game_stats, finalize_eq]

theorem fetch_color_results (u : String) (ls : List Line) :
    (fetch_game_stats u ls).color_results = (ingestAll u ls).stats.color_results := by
  rw [fetch_game_stats, finalize_eq]

theorem fetch_endings (u : String) (ls : List Line) :
    (fetch_game_stats u ls).endings = (ingestAll u ls).stats.endings := by
  rw [fetch_game_stats, finalize_eq]

theorem fetch_timeout_wins (u : String) (ls : List Line) :
    (fetch_game_stats u ls).timeout_wins = (ingestAll u ls).stats.timeout_wins := by
  rw [fetch_game_stats, finalize_eq]

theorem fetch_timeout_losses (u : String) (ls : List Line) :
    (fetch_game_stats u ls).timeout_losses = (ingestAll u ls).stats.timeout_losses := by
  rw [fetch_game_stats, finalize_eq]

theorem fetch_opp_sum (u : String) (ls : List Line) :
    (fetch_game_stats u ls).opponent_rating_sum
      = (ingestAll u ls).stats.opponent_rating_sum := by
  rw [fetch_game_stats, finalize_eq]

theorem fetch_opp_count (u : String) (ls : List Line) :
    (fetch_game_stats u ls).opponent_rating_count
      = (ingestAll u ls).stats.opponent_rating_count := by
  rw [fetch_game_stats, finalize_eq]

theorem fetch_by_speed (u : String) (ls : List Line) :
    (fetch_game_stats u ls).opponent_by_speed
      = (ingestAll u ls).stats.opponent_by_speed := by
  rw [fetch_game_stats, finalize_eq]

theorem fetch_hist (u : String) (ls : List Line) :
    (fetch_game_stats u ls).opponent_hist = (ingestAll u ls).stats.opponent_hist := by
  rw [fetch_game_stats, finalize_eq]

theorem fetch_top_wins (u : String) (ls : List Line) :
    (fetch_game_stats u ls).top_wins = (ingestAll u ls).stats.top_wins := by
  rw [fetch_game_stats, finalize_eq]

theorem fetch_month (u : String) (ls : List Line) :
    (fetch_game_stats u ls).month_counts = (ingestAll u ls).stats.month_counts := by
  rw [fetch_game_stats, finalize_eq]

theorem fetch_wday (u : String) (ls : List Line) :
    (fetch_game_stats u ls).wday_counts = (ingestAll u ls).stats.wday_counts := by
  rw [fetch_game_stats, finalize_eq]

theorem fetch_hour (u : String) (ls : List Line) :
    (fetch_game_stats u ls).hour_counts = (ingestAll u ls).stats.hour_counts := by
  rw [fetch_game_stats, finalize_eq]

/-- The streak fields of the returned statistics, in terms of the ingested
timeline (the accumulator's streak fields stay 0 through the whole
streaming phase). -/
theorem fetch_streaks (u : String) (ls : List Line) :
    (fetch_game_stats u ls).longest_win_streak
        = (match (ingestAll u ls).timeline with
           | [] => 0
           | _ :: _ => ((sortTL (ingestAll u ls).timeline).foldl streakStep (0, 0, 0, 0)).1) ∧
    (fetch_game_stats u ls).longest_loss_streak
        = (match (ingestAll u ls).timeline with
           | [] => 0
           | _ :: _ => ((sortTL (ingestAll u ls).timeline).foldl streakStep (0, 0, 0, 0)).2.1) := by
  have h1 : (ingestAll u ls).stats.longest_win_streak = 0 := by
    rw [ingestAll, foldl_ingest_lws]; rfl
  have h2 : (ingestAll u ls).stats.longest_loss_streak = 0 := by
    rw [ingestAll, foldl_ingest_lls]; rfl
  rw [fetch_game_stats, finalize_eq]
  constructor
  · show (match (ingestAll u ls).timeline with
      | [] => (ingestAll u ls).stats.longest_win_streak
      | _ :: _ => ((sortTL (ingestAll u ls).timeline).foldl streakStep (0, 0, 0, 0)).1) = _
    cases (ingestAll u ls).timeline <;> simp [h1]
  · show (match (ingestAll u ls).timeline with
      | [] => (ingestAll u ls).stats.longest_loss_streak
      | _ :: _ => ((sortTL (ingestAll u ls).timeline).foldl streakStep (0, 0, 0, 0)).2.1) = _
    cases (ingestAll u ls).timeline <;> simp [h2]

/-- The gap field of the returned statistics, in terms of the ingested
timestamp buffer (the accumulator's gap field stays 0 through the whole
streaming phase). -/
theorem fetch_gap (u : String) (ls : List Line) :
    (fetch_game_stats u ls).longest_gap_ms
      = if 1 < (ingestAll u ls).timestamps.length then
          maxList
            (List.zipWith (· - ·)
              (List.insertionSort (· ≤ ·) (ingestAll u ls).timestamps).tail
              (List.insertionSort (· ≤ ·) (ingestAll u ls).timestamps)) 0
        else 0 := by
  have h0 : (ingestAll u ls).stats.longest_gap_ms = 0 := by
    rw [ingestAll, foldl_ingest_gap]; rfl
  rw [fetch_game_stats, finalize_eq]
  show (if 1 < (ingestAll u ls).timestamps.length then
      maxList _ (ingestAll u ls).stats.longest_gap_ms
    else (ingestAll u ls).stats.longest_gap_ms) = _
  rw [h0]

/-! ### Claim C9 and C10: malformed and blank lines -/

/-- C9: a line that is not valid structured data (fails decoding or JSON
parsing) increments `total` by 1 and leaves every other statistic and both
buffers unchanged; the loop continues (the embedded step is a total
function, mirroring that the `except` clause swallows the error). -/
theorem c9_malformed_counts_total_only (uL : String) (st : AggState) :
    ingest uL st Line.malformed
      = { st with stats := { st.stats with total := st.stats.total + 1 } } := rfl

/-- C10: a whitespace-only line is skipped before the `total` counter is
incremented and leaves the entire state unchanged. -/
theorem c10_blank_line_noop (uL : String) (st : AggState) :
    ingest uL st Line.blank = st := rfl

/-! ### Claim C2: total consistency -/

@[simp] theorem isCounted_blank : Line.isCounted Line.blank = false := rfl

@[simp] theorem isCounted_malformed : Line.isCounted Line.malformed = true := rfl

@[simp] theorem isCounted_game (g : Game) : Line.isCounted (Line.game g) = true := rfl

@[simp] theorem isGame_blank : Line.isGame Line.blank = false := rfl

@[simp] theorem isGame_malformed : Line.isGame Line.malformed = false := rfl

@[simp] theorem isGame_game (g : Game) : Line.isGame (Line.game g) = true := rfl

/-- Non-blank lines split into parsed games and malformed lines. -/
theorem counted_split (ls : List Line) :
    (ls.filter (fun l => l.isCounted)).length
      = (ls.filter (fun l => l.isGame)).length
        + (ls.filter (fun l => l = Line.malformed)).length := by
  induction ls with
  | nil => rfl
  | cons b ls ih =>
      cases b <;> simp [List.filter_cons, ih] <;> omega

/-- C2: `total` equals the number of lines offered to the loop body (every
line except the whitespace-only ones, which are skipped before counting),
malformed lines included, and the four speed counters plus `other_speeds`
sum to `total` minus the number of lines that failed to parse. -/
theorem c2_total_consistency (u : String) (ls : List Line) :
    (fetch_game_stats u ls).total = (ls.filter (fun l => l.isCounted)).length ∧
    (fetch_game_stats u ls).speed_counts.bullet + (fetch_game_stats u ls).speed_counts.blitz
        + (fetch_game_stats u ls).speed_counts.rapid
        + (fetch_game_stats u ls).speed_counts.classical
        + (fetch_game_stats u ls).other_speeds
      = (fetch_game_stats u ls).total - (ls.filter (fun l => l = Line.malformed)).length := by
  have ht : (fetch_game_stats u ls).total = (ls.filter (fun l => l.isCounted)).length := by
    rw [fetch_total, ingestAll, foldl_ingest_total]
    simp [initialState, initialStats]
  have hs : (fetch_game_stats u ls).speed_counts.bullet
      + (fetch_game_stats u ls).speed_counts.blitz
      + (fetch_game_stats u ls).speed_counts.rapid
      + (fetch_game_stats u ls).speed_counts.classical
      + (fetch_game_stats u ls).other_speeds
      = (ls.filter (fun l => l.isGame)).length := by
    rw [fetch_speed_counts, fetch_other_speeds, ingestAll, foldl_ingest_speedsum]
    simp [initialState, initialStats]
  refine ⟨ht, ?_⟩
  rw [hs, ht, counted_split]
  omega

/-! ### Claim C8: outcome conservation -/

/-- C8: the three result counters never sum to more than `total`, and they
sum to exactly `total` only when every line that reaches the loop body is a
parsed game in which the subject is identified with a color. -/
theorem c8_outcome_conservation (u : String) (ls : List Line) :
    ((fetch_game_stats u ls).results.win + (fetch_game_stats u ls).results.loss
        + (fetch_game_stats u ls).results.draw ≤ (fetch_game_stats u ls).total) ∧
    ((fetch_game_stats u ls).results.win + (fetch_game_stats u ls).results.loss
        + (fetch_game_stats u ls).results.draw = (fetch_game_stats u ls).total →
      ∀ l ∈ ls, l = Line.blank ∨ ∃ g, l = Line.game g ∧ (userColorOf (lowerStr u) g).isSome) := by
  have hr : (fetch_game_stats u ls).results.win + (fetch_game_stats u ls).results.loss
      + (fetch_game_stats u ls).results.draw
      = (ls.filter (fun l => identifiedB (lowerStr u) l)).length := by
    rw [fetch_results, ingestAll, foldl_ingest_ressum]
    simp [initialState, initialStats]
  have ht : (fetch_game_stats u ls).total = (ls.filter (fun l => l.isCounted)).length := by
    rw [fetch_total, ingestAll, foldl_ingest_total]
    simp [initialState, initialStats]
  have himp : ∀ l : Line, identifiedB (lowerStr u) l = true → l.isCounted = true := by
    intro l h
    cases l <;> simp_all [identifiedB, Line.isCounted]
  obtain ⟨h1, h2⟩ := filter_length_mono_eq himp ls
  constructor
  · rw [hr, ht]; exact h1
  · intro he l hl
    have hln := h2 (by rw [hr, ht] at he; exact he) l hl
    cases l with
    | blank => exact Or.inl rfl
    | malformed =>
        have : identifiedB (lowerStr u) Line.malformed = true := hln rfl
        simp [identifiedB] at this
    | game g =>
        refine Or.inr ⟨g, rfl, ?_⟩
        have : identifiedB (lowerStr u) (Line.game g) = true := hln rfl
        simpa [identifiedB] using this

/-- A concrete run at which the equality case of C8 applies: one parsed
game in which the subject plays white. -/
def c8Game : Game :=
  { gid := none, createdAt := some 1000, lastMoveAt := none, speed := none
    white := ⟨some "a", none, none⟩, black := ⟨some "b", none, none⟩
    status := none, winner := some "white" }

theorem c8_outcome_conservation_witness :
    ((fetch_game_stats "a" [Line.game c8Game]).results.win
        + (fetch_game_stats "a" [Line.game c8Game]).results.loss
        + (fetch_game_stats "a" [Line.game c8Game]).results.draw
        = (fetch_game_stats "a" [Line.game c8Game]).total) ∧
    (∀ l ∈ [Line.game c8Game],
      l = Line.blank ∨ ∃ g, l = Line.game g ∧ (userColorOf (lowerStr "a") g).isSome) :=
  ⟨by decide, (c8_outcome_conservation "a" [Line.game c8Game]).2 (by decide)⟩

/-! ### Claim C5: outcome derivation -/

/-- C5: for a parsed record in which the subject is identified with color
`uc`, the derived outcome is `"win"` when the recorded winner equals the
subject's color, `"loss"` when a winner color is recorded and it is not the
subject's, and `"draw"` when neither applies and the status is a drawing
reason or no winner is recorded; the outcome is always one of the three
keys, exactly one result counter (and the matching per-color counter) is
incremented, and one `(timestamp-or-0, outcome)` pair is appended to the
timeline buffer. -/
theorem c5_outcome_derivation (uL : String) (st : AggState) (g : Game) (uc : String)
    (h : userColorOf uL g = some uc) :
    (g.winner = some uc → outcomeVal g uc = "win") ∧
    (g.winner ≠ some uc → (g.winner = some "white" ∨ g.winner = some "black") →
      outcomeVal g uc = "loss") ∧
    (g.winner ≠ some uc → ¬(g.winner = some "white" ∨ g.winner = some "black") →
      (isDrawStatus (statusOf g) = true ∨ g.winner = none) → outcomeVal g uc = "draw") ∧
    (outcomeVal g uc = "win" ∨ outcomeVal g uc = "loss" ∨ outcomeVal g uc = "draw") ∧
    (ingest uL st (.game g)).stats.results
        = bumpResults st.stats.results (outcomeVal g uc) ∧
    ((ingest uL st (.game g)).stats.results.win + (ingest uL st (.game g)).stats.results.loss
        + (ingest uL st (.game g)).stats.results.draw
      = st.stats.results.win + st.stats.results.loss + st.stats.results.draw + 1) ∧
    (ingest uL st (.game g)).stats.color_results
        = bumpColorResults st.stats.color_results uc (outcomeVal g uc) ∧
    (ingest uL st (.game g)).timeline
        = st.timeline ++ [((chooseTs g).getD 0, outcomeVal g uc)] := by
  refine ⟨?_, ?_, ?_, outcomeVal_cases g uc, ?_, ?_, ?_, ?_⟩
  · intro hw; simp [outcomeVal, hw]
  · intro hne hw; simp [outcomeVal, hne, hw]
  · intro hne hw hd
    simp only [outcomeVal, if_neg hne, if_neg hw]
    split_ifs <;> rfl
  · rw [ingest_results, dResults]
    simp only [h]
    rw [← bumpResults_add]
  · rw [ingest_results]
    have hs := dResults_sum uL (Line.game g)
    have hid : identifiedB uL (Line.game g) = true := by simp [identifiedB, h]
    rw [hid, if_pos rfl] at hs
    simp only [Results.add]
    omega
  · rw [ingest_color_results, dColorResults]
    simp only [h]
    rw [← bumpColorResults_add]
  · rw [ingest_timeline, tlDelta]
    simp only [h]

/-- Concrete record for the C5 witness: subject plays white and wins. -/
def c5Game : Game :=
  { gid := some "g1", createdAt := some 5000, lastMoveAt := none, speed := some "blitz"
    white := ⟨some "a", some 1400, some "A"⟩, black := ⟨some "b", some 1450, some "B"⟩
    status := some "mate", winner := some "white" }

theorem c5_outcome_derivation_witness :
    userColorOf "a" c5Game = some "white" ∧
    ((c5Game.winner = some "white" → outcomeVal c5Game "white" = "win") ∧
     (c5Game.winner ≠ some "white" →
        (c5Game.winner = some "white" ∨ c5Game.winner = some "black") →
        outcomeVal c5Game "white" = "loss") ∧
     (c5Game.winner ≠ some "white" →
        ¬(c5Game.winner = some "white" ∨ c5Game.winner = some "black") →
        (isDrawStatus (statusOf c5Game) = true ∨ c5Game.winner = none) →
        outcomeVal c5Game "white" = "draw") ∧
     (outcomeVal c5Game "white" = "win" ∨ outcomeVal c5Game "white" = "loss" ∨
        outcomeVal c5Game "white" = "draw") ∧
     (ingest "a" initialState (.game c5Game)).stats.results
         = bumpResults initialState.stats.results (outcomeVal c5Game "white") ∧
     ((ingest "a" initialState (.game c5Game)).stats.results.win
         + (ingest "a" initialState (.game c5Game)).stats.results.loss
         + (ingest "a" initialState (.game c5Game)).stats.results.draw
       = initialState.stats.results.win + initialState.stats.results.loss
         + initialState.stats.results.draw + 1) ∧
     (ingest "a" initialState (.game c5Game)).stats.color_results
         = bumpColorResults initialState.stats.color_results "white" (outcomeVal c5Game "white") ∧
     (ingest "a" initialState (.game c5Game)).timeline
         = initialState.timeline ++ [((chooseTs c5Game).getD 0, outcomeVal c5Game "white")]) :=
  ⟨by decide, c5_outcome_derivation "a" initialState c5Game "white" (by decide)⟩

/-! ### Claim C6: timestamp handling (corrected) -/

/-- The record on which claim C6, as stated, fails: the created timestamp is
present (with value 0), yet the code uses the last-move timestamp, because
Python's `or` treats the integer 0 as falsy. -/
def c6Game : Game :=
  { gid := none, createdAt := some 0, lastMoveAt := some 3600000, speed := none
    white := ⟨none, none, none⟩, black := ⟨none, none, none⟩
    status := none, winner := none }

/-- C6 counterexample: a record whose `createdAt` is present (value 0) and
whose `lastMoveAt` is 3600000 ms appends 3600000 -- not the present created
timestamp 0 -- to the timestamp buffer, and increments the hour-1 histogram
cell (1970-01-01 01:00 UTC) rather than the hour-0 cell that timestamp 0
would give. -/
theorem c6_counterexample :
    c6Game.createdAt = some 0 ∧
    (ingestAll "u" [Line.game c6Game]).timestamps = [3600000] ∧
    (ingestAll "u" [Line.game c6Game]).timestamps ≠ [0] ∧
    (fetch_game_stats "u" [Line.game c6Game]).hour_counts 1 = 1 ∧
    (fetch_game_stats "u" [Line.game c6Game]).hour_counts 0 = 0 := by
  refine ⟨rfl, by decide, by decide, by decide, by decide⟩

/-- C6 amended: the timestamp used is the created timestamp when it is
present and nonzero; a created timestamp that is absent or equal to 0
(falsy in Python) falls back to the last-move timestamp.  Whenever the
chosen timestamp is an integer `t`, it is appended to the timestamp buffer
and the month/weekday/hour cells of `t`'s UTC calendar fields are each
incremented by exactly 1; with no usable timestamp, buffer and histograms
are unchanged. -/
theorem c6_timestamp_handling (uL : String) (st : AggState) (g : Game) :
    (∀ c, g.createdAt = some c → c ≠ 0 → chooseTs g = some c) ∧
    (g.createdAt = none ∨ g.createdAt = some 0 → chooseTs g = g.lastMoveAt) ∧
    (∀ t, chooseTs g = some t →
      (ingest uL st (.game g)).timestamps = st.timestamps ++ [t] ∧
      (ingest uL st (.game g)).stats.month_counts
          = bump st.stats.month_counts (monthIdxOf t) ∧
      (ingest uL st (.game g)).stats.wday_counts
          = bump st.stats.wday_counts (wdayIdxOf t) ∧
      (ingest uL st (.game g)).stats.hour_counts
          = bump st.stats.hour_counts (hourIdxOf t)) ∧
    (chooseTs g = none →
      (ingest uL st (.game g)).timestamps = st.timestamps ∧
      (ingest uL st (.game g)).stats.month_counts = st.stats.month_counts ∧
      (ingest uL st (.game g)).stats.wday_counts = st.stats.wday_counts ∧
      (ingest uL st (.game g)).stats.hour_counts = st.stats.hour_counts) := by
  refine ⟨?_, ?_, ?_, ?_⟩
  · intro c hc hne; simp [chooseTs, hc, hne]
  · rintro (hc | hc) <;> simp [chooseTs, hc]
  · intro t ht
    refine ⟨?_, ?_, ?_, ?_⟩
    · rw [ingest_timestamps, tsDelta]; simp only [ht]
    · rw [ingest_month, dMonth]; simp only [ht]; rw [← bump_add]
    · rw [ingest_wday, dWday]; simp only [ht]; rw [← bump_add]
    · rw [ingest_hour, dHour]; simp only [ht]; rw [← bump_add]
  · intro ht
    refine ⟨?_, ?_, ?_, ?_⟩
    · rw [ingest_timestamps, tsDelta]; simp only [ht, List.append_nil]
    · rw [ingest_month, dMonth]; simp only [ht, addFun_zero]
    · rw [ingest_wday, dWday]; simp only [ht, addFun_zero]
    · rw [ingest_hour, dHour]; simp only [ht, addFun_zero]

theorem c6_timestamp_handling_witness :
    c5Game.createdAt = some 5000 ∧ (5000 : Int) ≠ 0 ∧ chooseTs c5Game = some 5000 ∧
    ((ingest "a" initialState (.game c5Game)).timestamps
        = initialState.timestamps ++ [5000] ∧
      (ingest "a" initialState (.game c5Game)).stats.month_counts
          = bump initialState.stats.month_counts (monthIdxOf 5000) ∧
      (ingest "a" initialState (.game c5Game)).stats.wday_counts
          = bump initialState.stats.wday_counts (wdayIdxOf 5000) ∧
      (ingest "a" initialState (.game c5Game)).stats.hour_counts
          = bump initialState.stats.hour_counts (hourIdxOf 5000)) :=
  ⟨by decide, by decide, by decide,
    (c6_timestamp_handling "a" initialState c5Game).2.2.1 5000 (by decide)⟩

/-! ### Claim C7: longest gap -/

/-- `List.foldl max` computes an element of the list that bounds the list. -/
theorem foldl_max_spec : ∀ (gs : List Int) (g : Int),
    (List.foldl max g gs ∈ g :: gs) ∧ ∀ x ∈ g :: gs, x ≤ List.foldl max g gs := by
  intro gs
  induction gs with
  | nil =>
      intro g
      constructor
      · simp
      · intro x hx
        simp only [List.foldl_nil]
        simp only [List.mem_singleton] at hx
        omega
  | cons a gs ih =>
      intro g
      constructor
      · have h := (ih (max g a)).1
        simp only [List.foldl_cons]
        rcases List.mem_cons.1 h with h1 | h1
        · rw [h1]
          rcases max_choice g a with hm | hm <;> rw [hm] <;> simp
        · simp [h1]
      · intro x hx
        simp only [List.foldl_cons]
        have h2 := (ih (max g a)).2
        rcases List.mem_cons.1 hx with h3 | hx1
        · rw [h3]; exact le_trans (le_max_left g a) (h2 _ (List.mem_cons_self _ _))
        rcases List.mem_cons.1 hx1 with h3 | hx2
        · rw [h3]; exact le_trans (le_max_right g a) (h2 _ (List.mem_cons_self _ _))
        · exact h2 x (List.mem_cons_of_mem _ hx2)

/-- `maxList` on a nonempty list is its maximum. -/
theorem maxList_spec (l : List Int) (d : Int) (h : l ≠ []) :
    maxList l d ∈ l ∧ ∀ x ∈ l, x ≤ maxList l d := by
  cases l with
  | nil => exact absurd rfl h
  | cons g gs => exact foldl_max_spec gs g

/-- Concrete input for the C7 example, delivered out of order: parsed games
carrying only timestamps 50000, 1000, 6000, 5000 ms. -/
def c7G (t : Int) : Game :=
  { gid := none, createdAt := some t, lastMoveAt := none, speed := none
    white := ⟨none, none, none⟩, black := ⟨none, none, none⟩
    status := none, winner := none }

def c7Lines : List Line :=
  [.game (c7G 50000), .game (c7G 1000), .game (c7G 6000), .game (c7G 5000)]

/-- C7: with at least two buffered timestamps, `longest_gap_ms` is the
maximum difference between chronologically adjacent timestamps (adjacent in
the ascending sort of the buffer): it is one of the adjacent differences and
bounds them all.  With fewer than two timestamps it remains 0.  On the
example buffer [1000, 5000, 6000, 50000] it is 44000. -/
theorem c7_longest_gap (u : String) (ls : List Line) :
    (1 < (ingestAll u ls).timestamps.length →
      (fetch_game_stats u ls).longest_gap_ms ∈
          List.zipWith (· - ·)
            (List.insertionSort (· ≤ ·) (ingestAll u ls).timestamps).tail
            (List.insertionSort (· ≤ ·) (ingestAll u ls).timestamps) ∧
      ∀ d ∈ List.zipWith (· - ·)
            (List.insertionSort (· ≤ ·) (ingestAll u ls).timestamps).tail
            (List.insertionSort (· ≤ ·) (ingestAll u ls).timestamps),
        d ≤ (fetch_game_stats u ls).longest_gap_ms) ∧
    (¬ 1 < (ingestAll u ls).timestamps.length →
      (fetch_game_stats u ls).longest_gap_ms = 0) ∧
    (fetch_game_stats "u" c7Lines).longest_gap_ms = 44000 := by
  refine ⟨?_, ?_, by decide⟩
  · intro h
    rw [fetch_gap, if_pos h]
    have hne : List.zipWith (· - ·)
        (List.insertionSort (· ≤ ·) (ingestAll u ls).timestamps).tail
        (List.insertionSort (· ≤ ·) (ingestAll u ls).timestamps) ≠ [] := by
      have hl : (List.insertionSort (· ≤ ·) (ingestAll u ls).timestamps).length
          = (ingestAll u ls).timestamps.length := List.length_insertionSort _ _
      have : (List.zipWith (· - ·)
          (List.insertionSort (· ≤ ·) (ingestAll u ls).timestamps).tail
          (List.insertionSort (· ≤ ·) (ingestAll u ls).timestamps)).length
          = (ingestAll u ls).timestamps.length - 1 := by
        rw [List.length_zipWith, List.length_tail, hl]
        omega
      intro hcon
      rw [hcon] at this
      simp at this
      omega
    exact maxList_spec _ 0 hne
  · intro h
    rw [fetch_gap, if_neg h]

theorem c7_longest_gap_witness :
    1 < (ingestAll "u" c7Lines).timestamps.length ∧
    ((fetch_game_stats "u" c7Lines).longest_gap_ms ∈
        List.zipWith (· - ·)
          (List.insertionSort (· ≤ ·) (ingestAll "u" c7Lines).timestamps).tail
          (List.insertionSort (· ≤ ·) (ingestAll "u" c7Lines).timestamps) ∧
      ∀ d ∈ List.zipWith (· - ·)
          (List.insertionSort (· ≤ ·) (ingestAll "u" c7Lines).timestamps).tail
          (List.insertionSort (· ≤ ·) (ingestAll "u" c7Lines).timestamps),
        d ≤ (fetch_game_stats "u" c7Lines).longest_gap_ms) :=
  ⟨by decide, (c7_longest_gap "u" c7Lines).1 (by decide)⟩

/-! ### Claim C3: streak computation -/

/-- Claim-side reformulation of one step of the streak walk, on outcome
strings: a win extends the current win run and resets the loss run, a loss
does the symmetric update, anything else resets both. -/
def runStep (p : Nat × Nat) (o : String) : Nat × Nat :=
  if o = "win" then (p.1 + 1, 0)
  else if o = "loss" then (0, p.2 + 1)
  else (0, 0)

/-- Claim-side reformulation of the whole streak statistic: the maxima of
the two run counters over the chronological walk. -/
def specLongestRuns (os : List String) : Nat × Nat :=
  (((os.scanl runStep (0, 0)).map Prod.fst).foldr max 0,
   ((os.scanl runStep (0, 0)).map Prod.snd).foldr max 0)

/-- Every prefix maximum in a `runStep` scan is at least the seed's value. -/
theorem scanl_head_bound (b : Nat × Nat) (os : List String) :
    b.1 ≤ (((os.scanl runStep b).map Prod.fst).foldr max 0) ∧
    b.2 ≤ (((os.scanl runStep b).map Prod.snd).foldr max 0) := by
  cases os <;> simp [List.scanl_cons, List.scanl_nil]

/-- The source's inline-maximum walk equals the maximum over the scan of the
claim-side run recurrence, provided the maxima already dominate the current
runs (true initially, all four start at 0). -/
theorem streak_fold_eq (ps : List (Int × String)) :
    ∀ lw ll cw cl, cw ≤ lw → cl ≤ ll →
      (ps.foldl streakStep (lw, ll, cw, cl)).1
          = max lw ((((ps.map Prod.snd).scanl runStep (cw, cl)).map Prod.fst).foldr max 0) ∧
      (ps.foldl streakStep (lw, ll, cw, cl)).2.1
          = max ll ((((ps.map Prod.snd).scanl runStep (cw, cl)).map Prod.snd).foldr max 0) := by
  induction ps with
  | nil =>
      intro lw ll cw cl h1 h2
      simp only [List.foldl_nil, List.map_nil, List.scanl_nil, List.map_cons, List.map_nil,
        List.foldr_cons, List.foldr_nil]
      constructor <;> omega
  | cons p ps ih =>
      intro lw ll cw cl h1 h2
      by_cases hw : p.2 = "win"
      · have hs : streakStep (lw, ll, cw, cl) p = (max lw (cw + 1), max ll 0, cw + 1, 0) := by
          simp [streakStep, hw]
        have hr : runStep (cw, cl) p.2 = (cw + 1, 0) := by simp [runStep, hw]
        obtain ⟨ihw, ihl⟩ :=
          ih (max lw (cw + 1)) (max ll 0) (cw + 1) 0 (le_max_right _ _) (le_max_right _ _)
        obtain ⟨hb1, hb2⟩ := scanl_head_bound (cw + 1, 0) (ps.map Prod.snd)
        simp only [List.foldl_cons, hs, List.map_cons, List.scanl_cons, hr,
          List.singleton_append, List.map_cons, List.foldr_cons] at *
        constructor
        · rw [ihw]; omega
        · rw [ihl]; omega
      by_cases hl : p.2 = "loss"
      · have hs : streakStep (lw, ll, cw, cl) p = (max lw 0, max ll (cl + 1), 0, cl + 1) := by
          simp [streakStep, hw, hl]
        have hr : runStep (cw, cl) p.2 = (0, cl + 1) := by simp [runStep, hw, hl]
        obtain ⟨ihw, ihl⟩ :=
          ih (max lw 0) (max ll (cl + 1)) 0 (cl + 1) (le_max_right _ _) (le_max_right _ _)
        obtain ⟨hb1, hb2⟩ := scanl_head_bound (0, cl + 1) (ps.map Prod.snd)
        simp only [List.foldl_cons, hs, List.map_cons, List.scanl_cons, hr,
          List.singleton_append, List.map_cons, List.foldr_cons] at *
        constructor
        · rw [ihw]; omega
        · rw [ihl]; omega
      · have hs : streakStep (lw, ll, cw, cl) p = (max lw 0, max ll 0, 0, 0) := by
          simp [streakStep, hw, hl]
        have hr : runStep (cw, cl) p.2 = (0, 0) := by simp [runStep, hw, hl]
        obtain ⟨ihw, ihl⟩ :=
          ih (max lw 0) (max ll 0) 0 0 (le_max_right _ _) (le_max_right _ _)
        obtain ⟨hb1, hb2⟩ := scanl_head_bound (0, 0) (ps.map Prod.snd)
        simp only [List.foldl_cons, hs, List.map_cons, List.scanl_cons, hr,
          List.singleton_append, List.map_cons, List.foldr_cons] at *
        constructor
        · rw [ihw]; omega
        · rw [ihl]; omega

/-- Game used by the C3 example: subject "a" plays white, outcome set by the
winner field, chronological position set by `createdAt`. -/
def c3G (t : Int) (w : Option String) : Game :=
  { gid := none, createdAt := some t, lastMoveAt := none, speed := none
    white := ⟨some "a", none, none⟩, black := ⟨some "b", none, none⟩
    status := none, winner := w }

/-- The C3 example stream, delivered most-recent-first; chronologically the
outcomes are win, win, loss, win, win, win, draw, loss, loss. -/
def c3Lines : List Line :=
  [.game (c3G 9000 (some "black")), .game (c3G 8000 (some "black")),
   .game (c3G 7000 none), .game (c3G 6000 (some "white")),
   .game (c3G 5000 (some "white")), .game (c3G 4000 (some "white")),
   .game (c3G 3000 (some "black")), .game (c3G 2000 (some "white")),
   .game (c3G 1000 (some "white"))]

/-- C3: the finalize pass sorts the buffered timeline by timestamp and walks
it once with the run recurrence of the claim (win extends the win run and
resets the loss run, loss symmetric, anything else resets both), recording
the maxima of the two runs; on the example timeline
[win, win, loss, win, win, win, draw, loss, loss] this yields a longest win
streak of 3 and a longest loss streak of 2. -/
theorem c3_streak_computation (u : String) (ls : List Line) :
    ((fetch_game_stats u ls).longest_win_streak
        = (specLongestRuns ((sortTL (ingestAll u ls).timeline).map Prod.snd)).1 ∧
     (fetch_game_stats u ls).longest_loss_streak
        = (specLongestRuns ((sortTL (ingestAll u ls).timeline).map Prod.snd)).2) ∧
    ((sortTL (ingestAll "a" c3Lines).timeline).map Prod.snd
        = ["win", "win", "loss", "win", "win", "win", "draw", "loss", "loss"] ∧
     (fetch_game_stats "a" c3Lines).longest_win_streak = 3 ∧
     (fetch_game_stats "a" c3Lines).longest_loss_streak = 2) := by
  refine ⟨?_, by decide, by decide, by decide⟩
  obtain ⟨hw, hl⟩ := fetch_streaks u ls
  rw [hw, hl]
  cases htl : (ingestAll u ls).timeline with
  | nil => simp [sortTL, List.insertionSort, specLongestRuns]
  | cons p tl =>
      have hnil : sortTL (p :: tl) ≠ [] := by
        intro hc
        have := List.length_insertionSort rTL (p :: tl)
        rw [sortTL] at hc
        rw [hc] at this
        simp at this
      obtain ⟨h1, h2⟩ := streak_fold_eq (sortTL (p :: tl)) 0 0 0 0 (le_refl 0) (le_refl 0)
      constructor
      · rw [h1, specLongestRuns]
        simp
      · rw [h2, specLongestRuns]
        simp

/-! ### Claim C4: top-wins bound, order and insertion behavior -/

/-- One `topUpd` step keeps the buffer at three entries or fewer and sorted
descending by rating. -/
theorem topUpd_invariant (tw : List TopWin) (x : TopWin) (h : tw.length ≤ 3) :
    (topUpd tw x).length ≤ 3 ∧ List.Sorted rTop (topUpd tw x) := by
  constructor
  · simp only [topUpd]
    split_ifs with hlen
    · rw [List.length_dropLast, List.length_insertionSort]
      simp
      omega
    · rw [List.length_insertionSort] at hlen ⊢
      simp at hlen ⊢
      omega
  · have hs := List.sorted_insertionSort rTop (tw ++ [x])
    simp only [topUpd]
    split_ifs with hlen
    · exact List.Pairwise.sublist (List.dropLast_sublist _) hs
    · exact hs

/-- The invariant holds after folding any sequence of win candidates. -/
theorem foldl_topUpd_invariant (ws : List TopWin) :
    ∀ tw : List TopWin, tw.length ≤ 3 → List.Sorted rTop tw →
      (List.foldl topUpd tw ws).length ≤ 3 ∧ List.Sorted rTop (List.foldl topUpd tw ws) := by
  induction ws with
  | nil => intro tw h hs; exact ⟨h, hs⟩
  | cons w ws ih =>
      intro tw h _
      obtain ⟨h1, h2⟩ := topUpd_invariant tw w h
      simpa using ih (topUpd tw w) h1 h2

/-- C4: after every ingestion step and at finalization, `top_wins` has at
most 3 entries and is sorted descending by rating; inserting a fourth win
rated strictly below all three current entries leaves the buffer unchanged,
and inserting one rated strictly above the current minimum evicts exactly
the current-minimum entry (the result holds the two higher entries plus the
newcomer, still three long and sorted). -/
theorem c4_top_wins (u : String) (ls : List Line) (a b c x : TopWin)
    (hab : b.1 ≤ a.1) (hbc : c.1 ≤ b.1) :
    ((ingestAll u ls).stats.top_wins.length ≤ 3 ∧
     List.Sorted rTop (ingestAll u ls).stats.top_wins ∧
     (fetch_game_stats u ls).top_wins.length ≤ 3 ∧
     List.Sorted rTop (fetch_game_stats u ls).top_wins) ∧
    (x.1 < a.1 → x.1 < b.1 → x.1 < c.1 → topUpd [a, b, c] x = [a, b, c]) ∧
    (c.1 < x.1 →
      (topUpd [a, b, c] x).Perm [a, b, x] ∧ (topUpd [a, b, c] x).length = 3 ∧
      List.Sorted rTop (topUpd [a, b, c] x)) := by
  refine ⟨?_, ?_, ?_⟩
  · have hbase : (ingestAll u ls).stats.top_wins
        = List.foldl topUpd [] (ls.flatMap (winDelta (lowerStr u))) := by
      rw [ingestAll, foldl_ingest_top_wins]
      rfl
    have hinv := foldl_topUpd_invariant (ls.flatMap (winDelta (lowerStr u))) []
      (by simp) (by simp)
    rw [← hbase] at hinv
    exact ⟨hinv.1, hinv.2, by rw [fetch_top_wins]; exact hinv.1,
      by rw [fetch_top_wins]; exact hinv.2⟩
  · intro h1 h2 h3
    have hcx : rTop c x := le_of_lt h3
    have hbcR : rTop b c := hbc
    have habR : rTop a b := hab
    simp [topUpd, List.insertionSort, List.orderedInsert, hcx, hbcR, habR, List.dropLast]
  · intro h3
    have hcx : ¬ rTop c x := by simp only [rTop, not_le]; omega
    have hbcR : rTop b c := hbc
    have habR : rTop a b := hab
    have hperm : (topUpd [a, b, c] x).Perm [a, b, x] := by
      by_cases hbx : rTop b x
      · simp [topUpd, List.insertionSort, List.orderedInsert, hcx, hbx, habR, List.dropLast]
      · by_cases hax : rTop a x
        · simp [topUpd, List.insertionSort, List.orderedInsert, hcx, hbx, hax, hbcR,
            List.dropLast]
          exact List.Perm.swap b x []
        · simp [topUpd, List.insertionSort, List.orderedInsert, hcx, hbx, hax, habR, hbcR,
            List.dropLast]
          exact (List.perm_append_singleton x [a, b]).symm
    refine ⟨hperm, by rw [hperm.length_eq]; rfl, (topUpd_invariant [a, b, c] x (by simp)).2⟩

theorem c4_top_wins_witness :
    (topUpd [((1700 : Int), "q", none), ((1600 : Int), "r", none), ((1500 : Int), "p", none)]
        ((1400 : Int), "s", none)
      = [((1700 : Int), "q", none), ((1600 : Int), "r", none), ((1500 : Int), "p", none)]) ∧
    ((topUpd [((1700 : Int), "q", none), ((1600 : Int), "r", none), ((1500 : Int), "p", none)]
        ((1650 : Int), "t", none)).Perm
          [((1700 : Int), "q", none), ((1600 : Int), "r", none), ((1650 : Int), "t", none)] ∧
      (topUpd [((1700 : Int), "q", none), ((1600 : Int), "r", none), ((1500 : Int), "p", none)]
        ((1650 : Int), "t", none)).length = 3 ∧
      List.Sorted rTop
        (topUpd [((1700 : Int), "q", none), ((1600 : Int), "r", none), ((1500 : Int), "p", none)]
          ((1650 : Int), "t", none))) :=
  ⟨(c4_top_wins "a" [] ((1700 : Int), "q", none) ((1600 : Int), "r", none)
      ((1500 : Int), "p", none) ((1400 : Int), "s", none) (by decide) (by decide)).2.1
      (by decide) (by decide) (by decide),
   (c4_top_wins "a" [] ((1700 : Int), "q", none) ((1600 : Int), "r", none)
      ((1500 : Int), "p", none) ((1650 : Int), "t", none) (by decide) (by decide)).2.2
      (by decide)⟩

/-! ### Claim C1: order independence (corrected) -/

/-- Game for the C1 tie counterexamples: subject "a" as white, fixed
opponent rating 1500, outcome and timestamp as given. -/
def c1G (t : Int) (w : Option String) (n : String) : Game :=
  { gid := none, createdAt := some t, lastMoveAt := none, speed := none
    white := ⟨some "a", none, none⟩, black := ⟨some "b", some 1500, some n⟩
    status := none, winner := w }

/-- Two deliveries of the same three records, both already nondecreasing in
timestamp: a win at 1000 and a win and a loss sharing timestamp 5000. -/
def c1p1 : List Line :=
  [.game (c1G 1000 (some "white") "x"), .game (c1G 5000 (some "white") "y"),
   .game (c1G 5000 (some "black") "z")]

def c1p2 : List Line :=
  [.game (c1G 1000 (some "white") "x"), .game (c1G 5000 (some "black") "z"),
   .game (c1G 5000 (some "white") "y")]

/-- Four equally-rated wins, delivered in opposite orders. -/
def c1q1 : List Line :=
  [.game (c1G 1000 (some "white") "n1"), .game (c1G 2000 (some "white") "n2"),
   .game (c1G 3000 (some "white") "n3"), .game (c1G 4000 (some "white") "n4")]

def c1q2 : List Line :=
  [.game (c1G 4000 (some "white") "n4"), .game (c1G 3000 (some "white") "n3"),
   .game (c1G 2000 (some "white") "n2"), .game (c1G 1000 (some "white") "n1")]

/-- C1 counterexample.  `c1p1` and `c1p2` are permutations of each other and
both are already sorted by timestamp, yet they produce longest win streaks
2 and 1: the claim's assertion that any delivery order yields the streaks of
sorted-order ingestion forces 2 = 1, so the claim is false when timestamps
tie (the stable timeline sort keeps tied records in delivery order).
Likewise `c1q1 ~ c1q2`, but the entry for opponent "n4" is retained in one
delivery order and not the other, refuting the claim that the retained
`top_wins` entries are the same set under any delivery permutation (rating
ties are kept in delivery order and the fourth is popped). -/
theorem c1_counterexample :
    c1p1.Perm c1p2 ∧
    (fetch_game_stats "a" c1p1).longest_win_streak = 2 ∧
    (fetch_game_stats "a" c1p2).longest_win_streak = 1 ∧
    c1q1.Perm c1q2 ∧
    ((1500 : Int), "n4", (none : Option String)) ∈ (fetch_game_stats "a" c1q2).top_wins ∧
    ((1500 : Int), "n4", (none : Option String)) ∉ (fetch_game_stats "a" c1q1).top_wins := by
  refine ⟨by decide, by decide, by decide, by decide, by decide, by decide⟩

/-- Two sorted lists that are permutations of each other and have pairwise
distinct keys are equal. -/
theorem eq_of_perm_of_sorted_keys {α : Type} (key : α → Int) :
    ∀ l1 l2 : List α, l1.Perm l2 →
      List.Sorted (fun a b => key a ≤ key b) l1 →
      List.Sorted (fun a b => key a ≤ key b) l2 →
      (l1.map key).Nodup → l1 = l2 := by
  intro l1
  induction l1 with
  | nil => intro l2 hp _ _ _; exact hp.nil_eq
  | cons a t1 ih =>
      intro l2 hp hs1 hs2 hnd
      cases l2 with
      | nil => exact absurd hp.symm.nil_eq (by simp)
      | cons b t2 =>
          have hab : a = b := by
            by_contra hne
            have ha2 : a ∈ b :: t2 := hp.subset (List.mem_cons_self _ _)
            have hb1 : b ∈ a :: t1 := hp.symm.subset (List.mem_cons_self _ _)
            have ha2' : a ∈ t2 := by
              rcases List.mem_cons.1 ha2 with h | h
              · exact absurd h hne
              · exact h
            have hb1' : b ∈ t1 := by
              rcases List.mem_cons.1 hb1 with h | h
              · exact absurd h.symm hne
              · exact h
            have h1 : key a ≤ key b := (List.sorted_cons.1 hs1).1 b hb1'
            have h2 : key b ≤ key a := (List.sorted_cons.1 hs2).1 a ha2'
            have hk : key b = key a := le_antisymm h2 h1
            have : key b ∈ t1.map key := List.mem_map_of_mem key hb1'
            rw [hk] at this
            simp only [List.map_cons, List.nodup_cons] at hnd
            exact hnd.1 this
          rw [hab] at hp hs1 hnd ⊢
          have hp' : t1.Perm t2 := hp.cons_inv
          have h1' := (List.sorted_cons.1 hs1).2
          have h2' := (List.sorted_cons.1 hs2).2
          have hnd' : (t1.map key).Nodup := by
            simp only [List.map_cons, List.nodup_cons] at hnd
            exact hnd.2
          rw [ih t2 hp' h1' h2' hnd']

/-- Insertion of a new entry into a descending list after all entries with
rating greater than or equal to its own: this is where a stable descending
sort places a newly appended element. -/
def insEnd (x : TopWin) : List TopWin → List TopWin
  | [] => [x]
  | y :: ys => if y.1 < x.1 then x :: y :: ys else y :: insEnd x ys

/-- `orderedInsert` of an earlier element commutes with `insEnd` of a later
one (stability: the earlier element goes before equals, the later one
after). -/
theorem oI_insEnd_comm (L : List TopWin) (y x : TopWin) :
    List.orderedInsert rTop y (insEnd x L) = insEnd x (List.orderedInsert rTop y L) := by
  induction L with
  | nil =>
      by_cases h : x.1 ≤ y.1
      · simp [insEnd, List.orderedInsert, rTop, h, not_lt.2 h]
      · have h2 : y.1 < x.1 := by omega
        simp [insEnd, List.orderedInsert, rTop, h, h2]
  | cons z zs ih =>
      by_cases hzx : z.1 < x.1
      · by_cases hyz : z.1 ≤ y.1
        · by_cases hyx : y.1 < x.1
          · simp [insEnd, List.orderedInsert, rTop, hzx, hyz, hyx, not_le.2 hyx,
              le_of_lt hzx]
          · simp [insEnd, List.orderedInsert, rTop, hzx, hyz, hyx, not_lt.1 hyx]
        · have hyx : y.1 < x.1 := by omega
          simp [insEnd, List.orderedInsert, rTop, hzx, hyz, hyx, not_le.2 hyx]
      · by_cases hyz : z.1 ≤ y.1
        · have hxy : x.1 ≤ y.1 := by omega
          simp [insEnd, List.orderedInsert, rTop, hzx, hyz, hxy, not_lt.2 hxy]
        · simp [insEnd, List.orderedInsert, rTop, hzx, hyz, ih]

/-- Stable-sorting after appending one element is inserting that element
after its ties in the stable sort of the rest. -/
theorem insertionSort_append_singleton (ws : List TopWin) (x : TopWin) :
    List.insertionSort rTop (ws ++ [x]) = insEnd x (List.insertionSort rTop ws) := by
  induction ws with
  | nil => simp [List.insertionSort, List.orderedInsert, insEnd]
  | cons w ws ih =>
      have h1 : List.insertionSort rTop ((w :: ws) ++ [x])
          = List.orderedInsert rTop w (List.insertionSort rTop (ws ++ [x])) := rfl
      have h2 : List.insertionSort rTop (w :: ws)
          = List.orderedInsert rTop w (List.insertionSort rTop ws) := rfl
      rw [h1, ih, oI_insEnd_comm, ← h2]

/-- Truncation to the `n` best survives a new insertion: inserting into the
kept prefix and truncating gives the same prefix as inserting into the full
list and truncating. -/
theorem take_insEnd (M : List TopWin) :
    ∀ (n : Nat) (x : TopWin),
      List.take n (insEnd x (List.take n M)) = List.take n (insEnd x M) := by
  induction M with
  | nil => intro n x; simp
  | cons a t ih =>
      intro n x
      cases n with
      | zero => rfl
      | succ m =>
          rw [List.take_succ_cons]
          by_cases hax : a.1 < x.1
          · have h1 : insEnd x (a :: List.take m t) = x :: a :: List.take m t := by
              simp only [insEnd]; rw [if_pos hax]
            have h2 : insEnd x (a :: t) = x :: a :: t := by
              simp only [insEnd]; rw [if_pos hax]
            rw [h1, h2, List.take_succ_cons, List.take_succ_cons]
            cases m with
            | zero => rfl
            | succ k =>
                rw [List.take_succ_cons, List.take_succ_cons, List.take_take]
                have hmin : k ⊓ (k + 1) = k := by omega
                rw [hmin]
          · have h1 : insEnd x (a :: List.take m t) = a :: insEnd x (List.take m t) := by
              simp only [insEnd]; rw [if_neg hax]
            have h2 : insEnd x (a :: t) = a :: insEnd x t := by
              simp only [insEnd]; rw [if_neg hax]
            rw [h1, h2, List.take_succ_cons, List.take_succ_cons, ih m x]

/-- `topUpd` on a buffer of at most 3 entries is append + stable sort +
truncate to the best 3. -/
theorem topUpd_take (tw : List TopWin) (x : TopWin) (h : tw.length ≤ 3) :
    topUpd tw x = List.take 3 (List.insertionSort rTop (tw ++ [x])) := by
  simp only [topUpd]
  have hlen : (List.insertionSort rTop (tw ++ [x])).length = tw.length + 1 := by
    rw [List.length_insertionSort, List.length_append]
    simp
  split_ifs with hgt
  · rw [List.dropLast_eq_take, hlen]
    congr 1
    omega
  · rw [List.take_of_length_le (by omega)]

/-- The running `top_wins` buffer is the 3 best (stable descending) of all
win candidates seen so far. -/
theorem foldl_topUpd_take (ws : List TopWin) :
    List.foldl topUpd [] ws = List.take 3 (List.insertionSort rTop ws) := by
  induction ws using List.reverseRecOn with
  | nil => rfl
  | append_singleton ws x ih =>
      rw [List.foldl_append, List.foldl_cons, List.foldl_nil, ih]
      have hlen : (List.take 3 (List.insertionSort rTop ws)).length ≤ 3 := by
        simp [List.length_take]
      have hsorted : List.Sorted rTop (List.take 3 (List.insertionSort rTop ws)) :=
        List.Pairwise.sublist (List.take_sublist _ _) (List.sorted_insertionSort rTop ws)
      rw [topUpd_take _ _ hlen, insertionSort_append_singleton,
        hsorted.insertionSort_eq, take_insEnd, ← insertionSort_append_singleton]

/-- With pairwise-distinct ratings, the retained `top_wins` do not depend on
the delivery order of the win candidates. -/
theorem foldl_topUpd_perm_of_nodup (ws1 ws2 : List TopWin) (hp : ws1.Perm ws2)
    (hnd : (ws1.map (fun e => e.1)).Nodup) :
    List.foldl topUpd [] ws1 = List.foldl topUpd [] ws2 := by
  rw [foldl_topUpd_take, foldl_topUpd_take]
  have hkey : List.insertionSort rTop ws1 = List.insertionSort rTop ws2 := by
    apply eq_of_perm_of_sorted_keys (fun e => -e.1)
    · exact ((List.perm_insertionSort rTop ws1).trans hp).trans
        (List.perm_insertionSort rTop ws2).symm
    · exact (List.sorted_insertionSort rTop ws1).imp (fun h => by
        simp only [neg_le_neg_iff]
        exact h)
    · exact (List.sorted_insertionSort rTop ws2).imp (fun h => by
        simp only [neg_le_neg_iff]
        exact h)
    · have h1 : ((ws1.map (fun e => e.1)).map Neg.neg).Nodup :=
        hnd.map neg_injective
      rw [List.map_map] at h1
      exact ((List.perm_insertionSort rTop ws1).map (fun e => -e.1)).symm.nodup h1
  rw [hkey]

/-- With pairwise-distinct timeline timestamps, the sorted timeline does not
depend on the delivery order. -/
theorem sortTL_eq_of_perm_nodup (tl1 tl2 : List (Int × String)) (hp : tl1.Perm tl2)
    (hnd : (tl1.map Prod.fst).Nodup) : sortTL tl1 = sortTL tl2 := by
  apply eq_of_perm_of_sorted_keys Prod.fst
  · exact ((List.perm_insertionSort rTL tl1).trans hp).trans
      (List.perm_insertionSort rTL tl2).symm
  · exact (List.sorted_insertionSort rTL tl1).imp (fun h => h)
  · exact (List.sorted_insertionSort rTL tl2).imp (fun h => h)
  · exact ((List.perm_insertionSort rTL tl1).map Prod.fst).symm.nodup hnd

/-- C1 amended: permuting the delivery order of the lines (subject username
and record contents fixed) leaves every returned statistic unchanged except
possibly `top_wins`, `longest_win_streak` and `longest_loss_streak`;
`longest_gap_ms` is included in the unchanged fields, and the two buffers
are preserved as multisets.  The two streak fields are also unchanged
whenever no two timeline entries share a timestamp (in particular they then
equal the values of sorted-order ingestion, any sorted delivery being such a
permutation), and `top_wins` is unchanged whenever no two win candidates
share an opponent rating.  With tied timestamps or tied ratings they may
depend on the relative delivery order of the tied records, as
`c1_counterexample` shows. -/
theorem c1_order_independence (u : String) (ls1 ls2 : List Line) (hp : ls1.Perm ls2) :
    (fetch_game_stats u ls1).total = (fetch_game_stats u ls2).total ∧
    (fetch_game_stats u ls1).speed_counts = (fetch_game_stats u ls2).speed_counts ∧
    (fetch_game_stats u ls1).other_speeds = (fetch_game_stats u ls2).other_speeds ∧
    (fetch_game_stats u ls1).results = (fetch_game_stats u ls2).results ∧
    (fetch_game_stats u ls1).color_results = (fetch_game_stats u ls2).color_results ∧
    (fetch_game_stats u ls1).endings = (fetch_game_stats u ls2).endings ∧
    (fetch_game_stats u ls1).timeout_wins = (fetch_game_stats u ls2).timeout_wins ∧
    (fetch_game_stats u ls1).timeout_losses = (fetch_game_stats u ls2).timeout_losses ∧
    (fetch_game_stats u ls1).opponent_rating_sum
        = (fetch_game_stats u ls2).opponent_rating_sum ∧
    (fetch_game_stats u ls1).opponent_rating_count
        = (fetch_game_stats u ls2).opponent_rating_count ∧
    (fetch_game_stats u ls1).opponent_by_speed
        = (fetch_game_stats u ls2).opponent_by_speed ∧
    (fetch_game_stats u ls1).opponent_hist = (fetch_game_stats u ls2).opponent_hist ∧
    (fetch_game_stats u ls1).month_counts = (fetch_game_stats u ls2).month_counts ∧
    (fetch_game_stats u ls1).wday_counts = (fetch_game_stats u ls2).wday_counts ∧
    (fetch_game_stats u ls1).hour_counts = (fetch_game_stats u ls2).hour_counts ∧
    (fetch_game_stats u ls1).longest_gap_ms = (fetch_game_stats u ls2).longest_gap_ms ∧
    (ingestAll u ls1).timeline.Perm (ingestAll u ls2).timeline ∧
    (ingestAll u ls1).timestamps.Perm (ingestAll u ls2).timestamps ∧
    (((ingestAll u ls1).timeline.map Prod.fst).Nodup →
      (fetch_game_stats u ls1).longest_win_streak
          = (fetch_game_stats u ls2).longest_win_streak ∧
      (fetch_game_stats u ls1).longest_loss_streak
          = (fetch_game_stats u ls2).longest_loss_streak) ∧
    (((ls1.flatMap (winDelta (lowerStr u))).map (fun e => e.1)).Nodup →
      (fetch_game_stats u ls1).top_wins = (fetch_game_stats u ls2).top_wins) := by
  have htl1 : (ingestAll u ls1).timeline = ls1.flatMap (tlDelta (lowerStr u)) := by
    rw [ingestAll, foldl_ingest_timeline]; rfl
  have htl2 : (ingestAll u ls2).timeline = ls2.flatMap (tlDelta (lowerStr u)) := by
    rw [ingestAll, foldl_ingest_timeline]; rfl
  have hts1 : (ingestAll u ls1).timestamps = ls1.flatMap tsDelta := by
    rw [ingestAll, foldl_ingest_timestamps]; rfl
  have hts2 : (ingestAll u ls2).timestamps = ls2.flatMap tsDelta := by
    rw [ingestAll, foldl_ingest_timestamps]; rfl
  have htlp : (ingestAll u ls1).timeline.Perm (ingestAll u ls2).timeline := by
    rw [htl1, htl2]; exact hp.flatMap_right _
  have htsp : (ingestAll u ls1).timestamps.Perm (ingestAll u ls2).timestamps := by
    rw [hts1, hts2]; exact hp.flatMap_right _
  refine ⟨?_, ?_, ?_, ?_, ?_, ?_, ?_, ?_, ?_, ?_, ?_, ?_, ?_, ?_, ?_, ?_, htlp, htsp, ?_, ?_⟩
  · rw [fetch_total, fetch_total, ingestAll, ingestAll]
    exact ingest_foldl_proj_perm _ (fun st => st.stats.total) dTotal (· + ·)
      (fun s b => ingest_total _ s b) (fun c a b => add_right_comm c a b) hp initialState
  · rw [fetch_speed_counts, fetch_speed_counts, ingestAll, ingestAll]
    exact ingest_foldl_proj_perm _ (fun st => st.stats.speed_counts) dSpeed SpeedCounts.add
      (fun s b => ingest_speed_counts _ s b) speed_counts_add_right_comm hp initialState
  · rw [fetch_other_speeds, fetch_other_speeds, ingestAll, ingestAll]
    exact ingest_foldl_proj_perm _ (fun st => st.stats.other_speeds) dOther (· + ·)
      (fun s b => ingest_other_speeds _ s b) (fun c a b => add_right_comm c a b) hp initialState
  · rw [fetch_results, fetch_results, ingestAll, ingestAll]
    exact ingest_foldl_proj_perm _ (fun st => st.stats.results) (dResults (lowerStr u))
      Results.add (fun s b => ingest_results _ s b) results_add_right_comm hp initialState
  · rw [fetch_color_results, fetch_color_results, ingestAll, ingestAll]
    exact ingest_foldl_proj_perm _ (fun st => st.stats.color_results)
      (dColorResults (lowerStr u)) ColorResults.add
      (fun s b => ingest_color_results _ s b) color_results_add_right_comm hp initialState
  · rw [fetch_endings, fetch_endings, ingestAll, ingestAll]
    exact ingest_foldl_proj_perm _ (fun st => st.stats.endings) dEndings Endings.add
      (fun s b => ingest_endings _ s b) endings_add_right_comm hp initialState
  · rw [fetch_timeout_wins, fetch_timeout_wins, ingestAll, ingestAll]
    exact ingest_foldl_proj_perm _ (fun st => st.stats.timeout_wins)
      (dTimeoutWins (lowerStr u)) (· + ·)
      (fun s b => ingest_timeout_wins _ s b) (fun c a b => add_right_comm c a b) hp initialState
  · rw [fetch_timeout_losses, fetch_timeout_losses, ingestAll, ingestAll]
    exact ingest_foldl_proj_perm _ (fun st => st.stats.timeout_losses)
      (dTimeoutLosses (lowerStr u)) (· + ·)
      (fun s b => ingest_timeout_losses _ s b) (fun c a b => add_right_comm c a b) hp initialState
  · rw [fetch_opp_sum, fetch_opp_sum, ingestAll, ingestAll]
    exact ingest_foldl_proj_perm _ (fun st => st.stats.opponent_rating_sum)
      (dOppSum (lowerStr u)) (· + ·)
      (fun s b => ingest_opp_sum _ s b) (fun c a b => add_right_comm c a b) hp initialState
  · rw [fetch_opp_count, fetch_opp_count, ingestAll, ingestAll]
    exact ingest_foldl_proj_perm _ (fun st => st.stats.opponent_rating_count)
      (dOppCount (lowerStr u)) (· + ·)
      (fun s b => ingest_opp_count _ s b) (fun c a b => add_right_comm c a b) hp initialState
  · rw [fetch_by_speed, fetch_by_speed, ingestAll, ingestAll]
    exact ingest_foldl_proj_perm _ (fun st => st.stats.opponent_by_speed)
      (dBySpeed (lowerStr u)) OppBySpeed.add
      (fun s b => ingest_by_speed _ s b) opp_by_speed_add_right_comm hp initialState
  · rw [fetch_hist, fetch_hist, ingestAll, ingestAll]
    exact ingest_foldl_proj_perm _ (fun st => st.stats.opponent_hist)
      (dHist (lowerStr u)) addFun
      (fun s b => ingest_hist _ s b) addFun_right_comm hp initialState
  · rw [fetch_month, fetch_month, ingestAll, ingestAll]
    exact ingest_foldl_proj_perm _ (fun st => st.stats.month_counts) dMonth addFun
      (fun s b => ingest_month _ s b) addFun_right_comm hp initialState
  · rw [fetch_wday, fetch_wday, ingestAll, ingestAll]
    exact ingest_foldl_proj_perm _ (fun st => st.stats.wday_counts) dWday addFun
      (fun s b => ingest_wday _ s b) addFun_right_comm hp initialState
  · rw [fetch_hour, fetch_hour, ingestAll, ingestAll]
    exact ingest_foldl_proj_perm _ (fun st => st.stats.hour_counts) dHour addFun
      (fun s b => ingest_hour _ s b) addFun_right_comm hp initialState
  · have hlen : (ingestAll u ls1).timestamps.length
        = (ingestAll u ls2).timestamps.length := htsp.length_eq
    have hanti : IsAntisymm Int (· ≤ ·) := ⟨fun _ _ h1 h2 => le_antisymm h1 h2⟩
    have hsortTs : List.insertionSort (· ≤ ·) (ingestAll u ls1).timestamps
        = List.insertionSort (· ≤ ·) (ingestAll u ls2).timestamps := by
      apply @List.eq_of_perm_of_sorted Int (· ≤ ·) hanti
      · exact ((List.perm_insertionSort _ _).trans htsp).trans
          (List.perm_insertionSort _ _).symm
      · exact List.sorted_insertionSort _ _
      · exact List.sorted_insertionSort _ _
    rw [fetch_gap, fetch_gap, hlen, hsortTs]
  · intro hnd
    have hsort : sortTL (ingestAll u ls1).timeline = sortTL (ingestAll u ls2).timeline :=
      sortTL_eq_of_perm_nodup _ _ htlp hnd
    obtain ⟨hw1, hl1⟩ := fetch_streaks u ls1
    obtain ⟨hw2, hl2⟩ := fetch_streaks u ls2
    rw [hw1, hw2, hl1, hl2]
    cases hc1 : (ingestAll u ls1).timeline with
    | nil =>
        have hc2 : (ingestAll u ls2).timeline = [] := by
          rw [hc1] at htlp
          exact htlp.nil_eq.symm
        rw [hc2]
        exact ⟨rfl, rfl⟩
    | cons p tl =>
        cases hc2 : (ingestAll u ls2).timeline with
        | nil =>
            rw [hc1, hc2] at htlp
            exact absurd htlp.length_eq (by simp)
        | cons q tl2 =>
            rw [hc1, hc2] at hsort
            rw [hsort]
            exact ⟨rfl, rfl⟩
  · intro hnd
    have hw1 : (fetch_game_stats u ls1).top_wins
        = List.foldl topUpd [] (ls1.flatMap (winDelta (lowerStr u))) := by
      rw [fetch_top_wins, ingestAll, foldl_ingest_top_wins]; rfl
    have hw2 : (fetch_game_stats u ls2).top_wins
        = List.foldl topUpd [] (ls2.flatMap (winDelta (lowerStr u))) := by
      rw [fetch_top_wins, ingestAll, foldl_ingest_top_wins]; rfl
    rw [hw1, hw2]
    exact foldl_topUpd_perm_of_nodup _ _ (hp.flatMap_right _) hnd

/-- Games with distinct timestamps and distinct opponent ratings for the C1
witness. -/
def c1W (t r : Int) (w : Option String) : Game :=
  { gid := none, createdAt := some t, lastMoveAt := none, speed := none
    white := ⟨some "a", none, none⟩, black := ⟨some "b", some r, some "B"⟩
    status := none, winner := w }

def c1wA : List Line :=
  [.game (c1W 1000 1500 (some "white")), .game (c1W 2000 1600 (some "black")),
   .malformed, .blank]

def c1wB : List Line :=
  [.blank, .game (c1W 2000 1600 (some "black")), .malformed,
   .game (c1W 1000 1500 (some "white"))]

theorem c1_order_independence_witness :
    c1wA.Perm c1wB ∧
    ((ingestAll "a" c1wA).timeline.map Prod.fst).Nodup ∧
    ((c1wA.flatMap (winDelta (lowerStr "a"))).map (fun e => e.1)).Nodup ∧
    (fetch_game_stats "a" c1wA).total = (fetch_game_stats "a" c1wB).total ∧
    ((fetch_game_stats "a" c1wA).longest_win_streak
        = (fetch_game_stats "a" c1wB).longest_win_streak ∧
      (fetch_game_stats "a" c1wA).longest_loss_streak
        = (fetch_game_stats "a" c1wB).longest_loss_streak) ∧
    (fetch_game_stats "a" c1wA).top_wins = (fetch_game_stats "a" c1wB).top_wins := by
  have h := c1_order_independence "a" c1wA c1wB (by decide)
  exact ⟨by decide, by decide, by decide, h.1,
    h.2.2.2.2.2.2.2.2.2.2.2.2.2.2.2.2.2.2.1 (by decide),
    h.2.2.2.2.2.2.2.2.2.2.2.2.2.2.2.2.2.2.2 (by decide)⟩
